import Mathlib

/-!
# Verification of the retis/packet-tracer probe-and-event engine

Shallow embedding of the core data model and operations of the repository:
JSON event sections and their serializers, the probe manager, probe string
parsing, the tracking garbage collector, the OVS flow enricher and the
kernel inspector event lookup. Definitions are translated from the Rust
sources; where a referenced item is absent from the sources, the definition
is modelled from the specification and says so in its doc comment.
-/

namespace Retis

/-! ## JSON values

Model of `serde_json::Value` as used by the event serializers. Numbers in
the event sections are unsigned integers (`u8`..`u64`), so `num` carries a
`Nat`. Objects are association lists of string keys.
-/

inductive Json where
  | null
  | bool (b : Bool)
  | num (n : Nat)
  | str (s : String)
  | arr (elems : List Json)
  | obj (fields : List (String × Json))
deriving BEq

/-- Key lookup in a JSON object's field list (first match wins, as in
`serde_json::Map::get`). -/
def lookupJson (key : String) : List (String × Json) → Option Json
  | [] => none
  | (k, v) :: rest => if k == key then some v else lookupJson key rest

/-! Encoders for field values, following the derived `serde::Serialize`
on the Rust structs: `Option::None` serializes to `null`, `Some x` to the
value of `x`; `Vec<String>` to an array of strings. -/

def jOptNum : Option Nat → Json
  | none => Json.null
  | some n => Json.num n

def jOptStr : Option String → Json
  | none => Json.null
  | some s => Json.str s

def jOptBool : Option Bool → Json
  | none => Json.null
  | some b => Json.bool b

def jStrList (l : List String) : Json :=
  Json.arr (l.map Json.str)

def jNumList (l : List Nat) : Json :=
  Json.arr (l.map Json.num)

/-! Decoders, following the derived `serde::Deserialize`: an `Option`
field accepts `null` (and, via `getOptNum` etc. below, a missing key) as
`None`; a wrong shape is a decoding error (`none` at the Lean level). -/

def asOptNum : Json → Option (Option Nat)
  | Json.null => some none
  | Json.num n => some (some n)
  | _ => none

def asOptStr : Json → Option (Option String)
  | Json.null => some none
  | Json.str s => some (some s)
  | _ => none

def asOptBool : Json → Option (Option Bool)
  | Json.null => some none
  | Json.bool b => some (some b)
  | _ => none

def asNum : Json → Option Nat
  | Json.num n => some n
  | _ => none

def asStr : Json → Option String
  | Json.str s => some s
  | _ => none

def asStrElem : Json → Option String
  | Json.str s => some s
  | _ => none

def mapStrElems : List Json → Option (List String)
  | [] => some []
  | j :: rest => do
    let s ← asStrElem j
    let t ← mapStrElems rest
    pure (s :: t)

def asStrList : Json → Option (List String)
  | Json.arr elems => mapStrElems elems
  | _ => none

def asNumElem : Json → Option Nat
  | Json.num n => some n
  | _ => none

def mapNumElems : List Json → Option (List Nat)
  | [] => some []
  | j :: rest => do
    let n ← asNumElem j
    let t ← mapNumElems rest
    pure (n :: t)

def asNumList : Json → Option (List Nat)
  | Json.arr elems => mapNumElems elems
  | _ => none

/-- Read an `Option` numeric field: a missing key deserializes to `None`
(serde's implicit default for `Option` fields). -/
def getOptNum (fields : List (String × Json)) (key : String) : Option (Option Nat) :=
  match lookupJson key fields with
  | none => some none
  | some v => asOptNum v

def getOptStr (fields : List (String × Json)) (key : String) : Option (Option String) :=
  match lookupJson key fields with
  | none => some none
  | some v => asOptStr v

def getOptBool (fields : List (String × Json)) (key : String) : Option (Option Bool) :=
  match lookupJson key fields with
  | none => some none
  | some v => asOptBool v

/-- Read a required field of the given shape; a missing key is an error. -/
def getNum (fields : List (String × Json)) (key : String) : Option Nat :=
  (lookupJson key fields).bind asNum

def getStr (fields : List (String × Json)) (key : String) : Option String :=
  (lookupJson key fields).bind asStr

def getStrList (fields : List (String × Json)) (key : String) : Option (List String) :=
  (lookupJson key fields).bind asStrList

def getNumList (fields : List (String × Json)) (key : String) : Option (List Nat) :=
  (lookupJson key fields).bind asNumList

/-! ## The `skb` event section

`SkbEvent` from `src/module/skb/event.rs`, with the exact field names and
declaration order of the Rust struct. Machine-integer widths (`u8`, `u16`,
`u32`) are modelled as `Nat`; the serialized JSON form does not depend on
the width. -/

structure SkbEvent where
  etype : Option Nat
  src : Option String
  dst : Option String
  saddr : Option String
  daddr : Option String
  ip_version : Option Nat
  l3_len : Option Nat
  protocol : Option Nat
  sport : Option Nat
  dport : Option Nat
  tcp_seq : Option Nat
  tcp_ack_seq : Option Nat
  tcp_window : Option Nat
  tcp_flags : Option Nat
  udp_len : Option Nat
  icmp_type : Option Nat
  icmp_code : Option Nat
  dev_name : Option String
  ifindex : Option Nat
  rx_ifindex : Option Nat
  netns : Option Nat
  cloned : Option Bool
  fclone : Option Bool
  users : Option Nat
  dataref : Option Nat
  drop_reason : Option Nat
deriving DecidableEq

/-- The serialized field list of an `SkbEvent`, one entry per Rust field
under its exact name, in declaration order. -/
def skbFields (e : SkbEvent) : List (String × Json) :=
  [ ("etype", jOptNum e.etype)
  , ("src", jOptStr e.src)
  , ("dst", jOptStr e.dst)
  , ("saddr", jOptStr e.saddr)
  , ("daddr", jOptStr e.daddr)
  , ("ip_version", jOptNum e.ip_version)
  , ("l3_len", jOptNum e.l3_len)
  , ("protocol", jOptNum e.protocol)
  , ("sport", jOptNum e.sport)
  , ("dport", jOptNum e.dport)
  , ("tcp_seq", jOptNum e.tcp_seq)
  , ("tcp_ack_seq", jOptNum e.tcp_ack_seq)
  , ("tcp_window", jOptNum e.tcp_window)
  , ("tcp_flags", jOptNum e.tcp_flags)
  , ("udp_len", jOptNum e.udp_len)
  , ("icmp_type", jOptNum e.icmp_type)
  , ("icmp_code", jOptNum e.icmp_code)
  , ("dev_name", jOptStr e.dev_name)
  , ("ifindex", jOptNum e.ifindex)
  , ("rx_ifindex", jOptNum e.rx_ifindex)
  , ("netns", jOptNum e.netns)
  , ("cloned", jOptBool e.cloned)
  , ("fclone", jOptBool e.fclone)
  , ("users", jOptNum e.users)
  , ("dataref", jOptNum e.dataref)
  , ("drop_reason", jOptNum e.drop_reason)
  ]

/-- `EventSectionInternal::to_json` for `SkbEvent` (derived serde
serializer wrapped by `retis-derive`'s `EventSection`). -/
def SkbEvent.to_json (e : SkbEvent) : Json :=
  Json.obj (skbFields e)

/-- L2/L3 field group of the `SkbEvent` deserializer. -/
def skbDecodeL2L3 (fields : List (String × Json)) :
    Option (Option Nat × Option String × Option String × Option String ×
      Option String × Option Nat × Option Nat) := do
  let etype ← getOptNum fields "etype"
  let src ← getOptStr fields "src"
  let dst ← getOptStr fields "dst"
  let saddr ← getOptStr fields "saddr"
  let daddr ← getOptStr fields "daddr"
  let ip_version ← getOptNum fields "ip_version"
  let l3_len ← getOptNum fields "l3_len"
  pure (etype, src, dst, saddr, daddr, ip_version, l3_len)

/-- L4 field group of the `SkbEvent` deserializer. -/
def skbDecodeL4 (fields : List (String × Json)) :
    Option (Option Nat × Option Nat × Option Nat × Option Nat × Option Nat ×
      Option Nat × Option Nat) := do
  let protocol ← getOptNum fields "protocol"
  let sport ← getOptNum fields "sport"
  let dport ← getOptNum fields "dport"
  let tcp_seq ← getOptNum fields "tcp_seq"
  let tcp_ack_seq ← getOptNum fields "tcp_ack_seq"
  let tcp_window ← getOptNum fields "tcp_window"
  let tcp_flags ← getOptNum fields "tcp_flags"
  pure (protocol, sport, dport, tcp_seq, tcp_ack_seq, tcp_window, tcp_flags)

/-- UDP/ICMP/device field group of the `SkbEvent` deserializer. -/
def skbDecodeDev (fields : List (String × Json)) :
    Option (Option Nat × Option Nat × Option Nat × Option String ×
      Option Nat × Option Nat) := do
  let udp_len ← getOptNum fields "udp_len"
  let icmp_type ← getOptNum fields "icmp_type"
  let icmp_code ← getOptNum fields "icmp_code"
  let dev_name ← getOptStr fields "dev_name"
  let ifindex ← getOptNum fields "ifindex"
  let rx_ifindex ← getOptNum fields "rx_ifindex"
  pure (udp_len, icmp_type, icmp_code, dev_name, ifindex, rx_ifindex)

/-- Netns/dataref/drop field group of the `SkbEvent` deserializer. -/
def skbDecodeMeta (fields : List (String × Json)) :
    Option (Option Nat × Option Bool × Option Bool × Option Nat ×
      Option Nat × Option Nat) := do
  let netns ← getOptNum fields "netns"
  let cloned ← getOptBool fields "cloned"
  let fclone ← getOptBool fields "fclone"
  let users ← getOptNum fields "users"
  let dataref ← getOptNum fields "dataref"
  let drop_reason ← getOptNum fields "drop_reason"
  pure (netns, cloned, fclone, users, dataref, drop_reason)

/-- The derived serde deserializer for `SkbEvent`: reads each field by
name; the input must be a JSON object. -/
def SkbEvent.from_json : Json → Option SkbEvent
  | Json.obj fields => do
    let (etype, src, dst, saddr, daddr, ip_version, l3_len) ← skbDecodeL2L3 fields
    let (protocol, sport, dport, tcp_seq, tcp_ack_seq, tcp_window, tcp_flags) ←
      skbDecodeL4 fields
    let (udp_len, icmp_type, icmp_code, dev_name, ifindex, rx_ifindex) ←
      skbDecodeDev fields
    let (netns, cloned, fclone, users, dataref, drop_reason) ← skbDecodeMeta fields
    pure
      { etype := etype, src := src, dst := dst, saddr := saddr, daddr := daddr
      , ip_version := ip_version, l3_len := l3_len, protocol := protocol
      , sport := sport, dport := dport, tcp_seq := tcp_seq
      , tcp_ack_seq := tcp_ack_seq, tcp_window := tcp_window
      , tcp_flags := tcp_flags, udp_len := udp_len, icmp_type := icmp_type
      , icmp_code := icmp_code, dev_name := dev_name, ifindex := ifindex
      , rx_ifindex := rx_ifindex, netns := netns, cloned := cloned
      , fclone := fclone, users := users, dataref := dataref
      , drop_reason := drop_reason }
  | _ => none

/-! ## The `skb-drop` event section

`SkbDropEvent` from `src/events/skb_drop.rs`: `subsys` is optional,
`drop_reason` is a required string. -/

structure SkbDropEvent where
  subsys : Option String
  drop_reason : String
deriving DecidableEq

def SkbDropEvent.to_json (e : SkbDropEvent) : Json :=
  Json.obj [("subsys", jOptStr e.subsys), ("drop_reason", Json.str e.drop_reason)]

def SkbDropEvent.from_json : Json → Option SkbDropEvent
  | Json.obj fields => do
    let subsys ← getOptStr fields "subsys"
    let drop_reason ← getStr fields "drop_reason"
    pure { subsys := subsys, drop_reason := drop_reason }
  | _ => none

/-! ## The `skb-tracking` event section

`SkbTrackingEvent` from `src/module/skb_tracking/event.rs`: three required
`u64` fields and an optional drop reason. -/

structure SkbTrackingEvent where
  orig_head : Nat
  timestamp : Nat
  skb : Nat
  drop_reason : Option Nat
deriving DecidableEq

def SkbTrackingEvent.to_json (e : SkbTrackingEvent) : Json :=
  Json.obj
    [ ("orig_head", Json.num e.orig_head)
    , ("timestamp", Json.num e.timestamp)
    , ("skb", Json.num e.skb)
    , ("drop_reason", jOptNum e.drop_reason)
    ]

def SkbTrackingEvent.from_json : Json → Option SkbTrackingEvent
  | Json.obj fields => do
    let orig_head ← getNum fields "orig_head"
    let timestamp ← getNum fields "timestamp"
    let skb ← getNum fields "skb"
    let drop_reason ← getOptNum fields "drop_reason"
    pure { orig_head := orig_head, timestamp := timestamp, skb := skb
         , drop_reason := drop_reason }
  | _ => none

/-- `RawEventSectionFactory::from_raw` for the skb-tracking section
(`src/module/skb_tracking/event.rs`): exactly one raw section is accepted;
its packed C struct carries `orig_head`, `timestamp`, `skb` as `u64` and
`drop_reason` as `i32`, reported only when non-negative. -/
structure BpfTrackingEvent where
  orig_head : Nat
  timestamp : Nat
  skb : Nat
  drop_reason : Int
deriving DecidableEq

def skbTrackingFromRaw : List BpfTrackingEvent → Option SkbTrackingEvent
  | [raw] =>
      some
        { orig_head := raw.orig_head
        , timestamp := raw.timestamp
        , skb := raw.skb
        , drop_reason := if raw.drop_reason ≥ 0 then some raw.drop_reason.toNat else none }
  | _ => none

/-! ## The `ovs-flow-info` event section

`OvsFlowInfoEvent` as used by `retis/src/module/ovs/flow_info.rs`: fields
`ufid`, `flow`, `sf_acts`, `dpflow`, `ofpflows`. The struct's definition
lives in the `retis-events` crate, absent from the sources; its fields are
taken from the construction site in `flow_info.rs`.

The UFID is, per the spec, an opaque 128-bit tuple compared by value; it is
modelled as four 32-bit words (`Modelled from the spec:` the `Ufid` type of
`retis-events` is missing from the sources) and serialized as a four-element
array. -/

structure Ufid where
  w0 : Nat
  w1 : Nat
  w2 : Nat
  w3 : Nat
deriving DecidableEq

def jUfid (u : Ufid) : Json :=
  Json.arr [Json.num u.w0, Json.num u.w1, Json.num u.w2, Json.num u.w3]

def asUfid : Json → Option Ufid
  | Json.arr [Json.num w0, Json.num w1, Json.num w2, Json.num w3] =>
      some { w0 := w0, w1 := w1, w2 := w2, w3 := w3 }
  | _ => none

def getUfid (fields : List (String × Json)) (key : String) : Option Ufid :=
  (lookupJson key fields).bind asUfid

structure OvsFlowInfoEvent where
  ufid : Ufid
  flow : Nat
  sf_acts : Nat
  dpflow : String
  ofpflows : List String
deriving DecidableEq

def OvsFlowInfoEvent.to_json (e : OvsFlowInfoEvent) : Json :=
  Json.obj
    [ ("ufid", jUfid e.ufid)
    , ("flow", Json.num e.flow)
    , ("sf_acts", Json.num e.sf_acts)
    , ("dpflow", Json.str e.dpflow)
    , ("ofpflows", jStrList e.ofpflows)
    ]

def OvsFlowInfoEvent.from_json : Json → Option OvsFlowInfoEvent
  | Json.obj fields => do
    let ufid ← getUfid fields "ufid"
    let flow ← getNum fields "flow"
    let sf_acts ← getNum fields "sf_acts"
    let dpflow ← getStr fields "dpflow"
    let ofpflows ← getStrList fields "ofpflows"
    pure { ufid := ufid, flow := flow, sf_acts := sf_acts, dpflow := dpflow
         , ofpflows := ofpflows }
  | _ => none

/-! ## The `kernel` and `common` event sections

`Modelled from the spec:` the `KernelEvent` and `CommonEvent` structs are
missing from the sources (only registrations in `src/module/group.rs` refer
to them). Per the spec's data model, the kernel section carries the symbol
address, the stack id and the argument registers; the common section
carries the timestamp and the smp id. -/

structure KernelEvent where
  symbol : Nat
  stack_id : Nat
  args : List Nat
deriving DecidableEq

def KernelEvent.to_json (e : KernelEvent) : Json :=
  Json.obj
    [ ("symbol", Json.num e.symbol)
    , ("stack_id", Json.num e.stack_id)
    , ("args", jNumList e.args)
    ]

def KernelEvent.from_json : Json → Option KernelEvent
  | Json.obj fields => do
    let symbol ← getNum fields "symbol"
    let stack_id ← getNum fields "stack_id"
    let args ← getNumList fields "args"
    pure { symbol := symbol, stack_id := stack_id, args := args }
  | _ => none

structure CommonEvent where
  timestamp : Nat
  smp_id : Nat
deriving DecidableEq

def CommonEvent.to_json (e : CommonEvent) : Json :=
  Json.obj [("timestamp", Json.num e.timestamp), ("smp_id", Json.num e.smp_id)]

def CommonEvent.from_json : Json → Option CommonEvent
  | Json.obj fields => do
    let timestamp ← getNum fields "timestamp"
    let smp_id ← getNum fields "smp_id"
    pure { timestamp := timestamp, smp_id := smp_id }
  | _ => none

/-! ## Probe manager (`src/core/probe/manager.rs`)

`Modelled from the spec:` the `Probe` enum itself is missing from the
sources (the manager only matches on its four variants); per the spec it is
a tagged target with variants KProbe, KRetProbe, RawTracepoint and Usdt,
whose stable key is `(type_tag, attach_name)`. -/

inductive ProbeTypeTag where
  | kprobe
  | kretprobe
  | rawTracepoint
  | usdt
deriving DecidableEq

inductive Probe where
  | kprobe (symbol : String)
  | kretprobe (symbol : String)
  | rawTracepoint (symbol : String)
  | usdt (target : String)
deriving DecidableEq

def Probe.typeTag : Probe → ProbeTypeTag
  | .kprobe _ => .kprobe
  | .kretprobe _ => .kretprobe
  | .rawTracepoint _ => .rawTracepoint
  | .usdt _ => .usdt

def Probe.attachName : Probe → String
  | .kprobe s => s
  | .kretprobe s => s
  | .rawTracepoint s => s
  | .usdt t => t

/-- `Probe::key()`: stable key for deduplication. -/
def Probe.key (p : Probe) : ProbeTypeTag × String :=
  (p.typeTag, p.attachName)

def Probe.isUsdt : Probe → Bool
  | .usdt _ => true
  | _ => false

/-- `Hook` (`src/core/probe/common.rs`): an opaque program blob. The
map-reuse table plays no role in the registration logic. -/
structure Hook where
  data : List Nat
deriving DecidableEq

/-- `ProbeSet` from `src/core/probe/manager.rs`. The `HashMap<String,
Probe>` keyed by `Probe::key()` is modelled as an association list. -/
structure ProbeSet where
  probes : List ((ProbeTypeTag × String) × Probe)
  hooks : List Hook
  supports_generic_hooks : Bool
deriving DecidableEq

/-- `ProbeManager` from `src/core/probe/manager.rs`. The fields not
touched by the registration operations under verification (`filters`,
`global_probes_options`, `maps`, `config_map`, `builders`) are omitted. -/
structure ProbeManager where
  generic_probes : List ((ProbeTypeTag × String) × Probe)
  generic_hooks : List Hook
  targeted_probes : List ProbeSet
deriving DecidableEq

-- Keep in sync with their BPF counterparts in bpf/include/common.h
def PROBE_MAX : Nat := 1024
def HOOK_MAX : Nat := 10

/-- Registration errors raised by the probe manager (`bail!` sites in
`manager.rs`), as an enumeration of the distinct messages. -/
inductive ManagerError where
  /-- "Can't register probe, reached maximum capacity (PROBE_MAX)" -/
  | reachedMaximumCapacity (max : Nat)
  /-- "Hook list is already full" -/
  | hookListFull
  /-- "USDT probes only support a single hook" -/
  | usdtSingleHook
deriving DecidableEq

def containsKey (l : List ((ProbeTypeTag × String) × Probe))
    (k : ProbeTypeTag × String) : Bool :=
  l.any (fun kv => kv.1 == k)

/-- `HashMap::entry(key).or_insert(probe)`: insert only when absent. -/
def insertIfAbsent (l : List ((ProbeTypeTag × String) × Probe))
    (k : ProbeTypeTag × String) (p : Probe) :
    List ((ProbeTypeTag × String) × Probe) :=
  if containsKey l k then l else l ++ [(k, p)]

/-- `HashMap::remove(key)` (a hash map holds one binding per key). -/
def removeKey (l : List ((ProbeTypeTag × String) × Probe))
    (k : ProbeTypeTag × String) : List ((ProbeTypeTag × String) × Probe) :=
  l.filter (fun kv => !(kv.1 == k))

/-- Total number of registered probes, generic and targeted
(`ProbeManager::check_probe_max`'s `size`). -/
def ProbeManager.size (m : ProbeManager) : Nat :=
  m.generic_probes.length + (m.targeted_probes.map (fun s => s.probes.length)).sum

/-- `ProbeManager::check_probe_max`. -/
def ProbeManager.check_probe_max (m : ProbeManager) : Except ManagerError Unit :=
  if m.size ≥ PROBE_MAX then
    Except.error (ManagerError.reachedMaximumCapacity PROBE_MAX)
  else
    Except.ok ()

/-- `ProbeManager::add_probe` (the spec's `register_probe`). Rust mutates
`&mut self` with early returns; the model returns the possibly-updated
manager together with the `Result`. -/
def ProbeManager.add_probe (m : ProbeManager) (p : Probe) :
    ProbeManager × Except ManagerError Unit :=
  let key := p.key
  -- Check if it is already in the targeted probe list.
  if m.targeted_probes.any (fun set => containsKey set.probes key) then
    (m, Except.ok ())
  else
    match m.check_probe_max with
    | Except.error e => (m, Except.error e)
    | Except.ok () =>
        -- If not, insert it in the generic probe list, if not there already.
        ({ m with generic_probes := insertIfAbsent m.generic_probes key p },
          Except.ok ())

/-- Outcome of the loop over targeted sets in
`ProbeManager::register_hook_to`. -/
inductive SetsResult where
  | notFound
  | updated (sets : List ProbeSet)
  | failed (e : ManagerError)

/-- The `for set in self.targeted_probes.iter_mut()` loop of
`register_hook_to`: append the hook to the first set holding the key,
enforcing the USDT single-hook rule and the hook cap. -/
def registerHookInSets (nGenericHooks : Nat) (hook : Hook)
    (key : ProbeTypeTag × String) (probeIsUsdt : Bool) :
    List ProbeSet → SetsResult
  | [] => SetsResult.notFound
  | set :: rest =>
      if containsKey set.probes key then
        if probeIsUsdt then
          SetsResult.failed ManagerError.usdtSingleHook
        else if nGenericHooks + set.hooks.length ≥ HOOK_MAX then
          SetsResult.failed ManagerError.hookListFull
        else
          SetsResult.updated ({ set with hooks := set.hooks ++ [hook] } :: rest)
      else
        match registerHookInSets nGenericHooks hook key probeIsUsdt rest with
        | SetsResult.notFound => SetsResult.notFound
        | SetsResult.updated sets => SetsResult.updated (set :: sets)
        | SetsResult.failed e => SetsResult.failed e

/-- `ProbeManager::register_hook_to` (the spec's `register_hook_for`).
Note the removal from the generic set happens before the remaining checks,
exactly as in the source. -/
def ProbeManager.register_hook_to (m0 : ProbeManager) (hook : Hook) (p : Probe) :
    ProbeManager × Except ManagerError Unit :=
  if m0.generic_hooks.length ≥ HOOK_MAX then
    (m0, Except.error ManagerError.hookListFull)
  else
    let key := p.key
    -- First check if the target isn't already registered to the generic
    -- probes list. If so, remove it from there.
    let m := { m0 with generic_probes := removeKey m0.generic_probes key }
    match registerHookInSets m.generic_hooks.length hook key p.isUsdt
        m.targeted_probes with
    | SetsResult.updated sets =>
        ({ m with targeted_probes := sets }, Except.ok ())
    | SetsResult.failed e => (m, Except.error e)
    | SetsResult.notFound =>
        match m.check_probe_max with
        | Except.error e => (m, Except.error e)
        | Except.ok () =>
            -- New target, let's build a new probe set.
            let set : ProbeSet :=
              { probes := [(key, p)]
              , hooks := [hook]
              , supports_generic_hooks := !p.isUsdt }
            ({ m with targeted_probes := m.targeted_probes ++ [set] },
              Except.ok ())

/-- `ProbeManager::new()` as visible to the registration logic. -/
def emptyManager : ProbeManager :=
  { generic_probes := [], generic_hooks := [], targeted_probes := [] }

/-- Register a list of probes in order, failing if any registration
fails. -/
def addAllOk : ProbeManager → List Probe → Option ProbeManager
  | m, [] => some m
  | m, p :: ps =>
      match m.add_probe p with
      | (m2, Except.ok ()) => addAllOk m2 ps
      | (_, Except.error _) => none

/-! ## Kernel inspector (`src/core/inspect/kernel.rs`)

Only the traceable-set state is needed by the verified operations; the
symbol bimap and BTF reader are external inputs. A `none` set models an
absent backing file. -/

structure Inspector where
  traceable_funcs : Option (List String)
  traceable_events : Option (List String)

/-- `KernelInspector::find_matching_event`: given an event name without
the group part, return the first traceable event ending in `":name"`, or
`None` when the events file is absent or nothing matches. -/
def find_matching_event (insp : Inspector) (name : String) : Option String :=
  match insp.traceable_events with
  | none => none
  | some events =>
      events.find? (fun event => (":" ++ name).data.isSuffixOf event.data)

/-- Shell-style wildcard matching: `*` matches any substring, all other
characters match themselves. This is `matching_functions`'s
`^target$` regex with `*` replaced by `.*`
(`src/core/inspect/kernel.rs`, and §9 of the spec: anchored at both ends,
case-sensitive). -/
def globMatch : List Char → List Char → Bool
  | [], s => s.isEmpty
  | c :: ps, s =>
      if c = '*' then
        match s with
        | [] => globMatch ps []
        | _ :: rest => globMatch ps s || globMatch (c :: ps) rest
      else
        match s with
        | [] => false
        | a :: rest => c == a && globMatch ps rest
termination_by p s => (p.length, s.length)

def globMatchStr (pattern s : String) : Bool :=
  globMatch pattern.data s.data

/-! ## Probe parsing (`retis/src/core/probe/kernel/utils.rs`) -/

/-- A resolved probe target: a kernel function or a traceable event
(`group:name`). `Modelled from the spec:` the `Symbol` type of
`core/kernel/symbol.rs` is missing from the sources; the address and
argument count it carries play no role in parsing. -/
inductive Symbol where
  | func (name : String)
  | event (full : String)
deriving DecidableEq

def Symbol.attachName : Symbol → String
  | .func name => name
  | .event full => full

/-- Errors raised while parsing a probe string. -/
inductive ParseError where
  /-- "Invalid TYPE {}. See the help." -/
  | invalidType (t : String)
  /-- No traceable symbol matches the target. -/
  | missingSymbols (target : String)
  /-- The traceable-functions or traceable-events file is unavailable. -/
  | fileAbsent
deriving DecidableEq

/-- `Modelled from the spec:` `matching_functions_to_symbols` of
`core/kernel/symbol.rs` is missing from the sources. Per §4.2 of the spec,
the target expands via wildcards over the inspector's traceable functions
and missing symbols fail. -/
def matching_functions_to_symbols (insp : Inspector) (target : String) :
    Except ParseError (List Symbol) :=
  match insp.traceable_funcs with
  | none => Except.error ParseError.fileAbsent
  | some funcs =>
      let names := funcs.filter (fun f => globMatchStr target f)
      if names.isEmpty then Except.error (ParseError.missingSymbols target)
      else Except.ok (names.map Symbol.func)

/-- `Modelled from the spec:` `matching_events_to_symbols` of
`core/kernel/symbol.rs` is missing from the sources. Per §4.2 of the spec,
the target expands via wildcards over the inspector's traceable events
(full `group:name` entries) and missing symbols fail. -/
def matching_events_to_symbols (insp : Inspector) (target : String) :
    Except ParseError (List Symbol) :=
  match insp.traceable_events with
  | none => Except.error ParseError.fileAbsent
  | some events =>
      let names := events.filter (fun e => globMatchStr target e)
      if names.isEmpty then Except.error (ParseError.missingSymbols target)
      else Except.ok (names.map Symbol.event)

/-- The lightweight probe-type enumeration local to `parse_probe`. -/
inductive PType where
  | kprobe
  | kretprobe
  | rawTracepoint
deriving DecidableEq

/-- `str::split_once(':')` on character lists: split at the first colon. -/
def splitOnceColon : List Char → Option (List Char × List Char)
  | [] => none
  | c :: cs =>
      if c = ':' then some ([], cs)
      else
        match splitOnceColon cs with
        | some (pre, post) => some (c :: pre, post)
        | none => none

/-- Build a probe of the resolved type from a symbol
(`Probe::kprobe`/`kretprobe`/`raw_tracepoint`). -/
def mkProbe : PType → Symbol → Probe
  | PType.kprobe, s => Probe.kprobe s.attachName
  | PType.kretprobe, s => Probe.kretprobe s.attachName
  | PType.rawTracepoint, s => Probe.rawTracepoint s.attachName

/-- `parse_probe` from `retis/src/core/probe/kernel/utils.rs`: resolve the
probe type and target from the input string, expand the target to symbols,
filter them and build the probes. -/
def parse_probe (insp : Inspector) (probe : String) (filter : Symbol → Bool) :
    Except ParseError (List Probe) := do
  let (ty, target) ←
    match splitOnceColon probe.data with
    | some (typeStr, target) =>
        if typeStr = "kprobe".data ∨ typeStr = "k".data then
          Except.ok (PType.kprobe, String.mk target)
        else if typeStr = "kretprobe".data ∨ typeStr = "kr".data then
          Except.ok (PType.kretprobe, String.mk target)
        else if typeStr = "raw_tracepoint".data ∨ typeStr = "tp".data then
          Except.ok (PType.rawTracepoint, String.mk target)
        -- If a single ':' was found in the probe name but we didn't match
        -- any known type, defaults to trying using it as a raw tracepoint.
        else if probe.data.count ':' = 1 then
          Except.ok (PType.rawTracepoint, probe)
        else
          Except.error (ParseError.invalidType (String.mk typeStr))
    -- If no ':' was found, defaults to kprobe.
    | none => Except.ok (PType.kprobe, probe)
  let symbols ←
    match ty with
    | PType.kprobe | PType.kretprobe => matching_functions_to_symbols insp target
    | PType.rawTracepoint => matching_events_to_symbols insp target
  Except.ok ((symbols.filter filter).map (mkProbe ty))

/-- The common tail of `parse_probe` once the probe type and target are
resolved: expand the target to symbols, filter and build probes. -/
def resolveTarget (insp : Inspector) (ty : PType) (target : String)
    (filter : Symbol → Bool) : Except ParseError (List Probe) := do
  let symbols ←
    match ty with
    | PType.kprobe | PType.kretprobe => matching_functions_to_symbols insp target
    | PType.rawTracepoint => matching_events_to_symbols insp target
  Except.ok ((symbols.filter filter).map (mkProbe ty))

/-- Well-formedness of the inspector contents assumed throughout §4.2:
traceable function names are nonempty and contain no colon; traceable
event names are `group:event` with both parts nonempty (so they contain
exactly one colon and neither start nor end with it). -/
def Inspector.wf (insp : Inspector) : Prop :=
  (∀ funcs, insp.traceable_funcs = some funcs →
    ∀ f ∈ funcs, f.data ≠ [] ∧ ':' ∉ f.data) ∧
  (∀ events, insp.traceable_events = some events →
    ∀ e ∈ events, ∃ g n, e.data = g ++ ':' :: n ∧ g ≠ [] ∧ n ≠ [] ∧
      ':' ∉ g ∧ ':' ∉ n)

/-! ## Tracking garbage collector (`src/core/tracking/garbage.rs`)

One pass of the GC loop body over one tracking map. Durations are in
nanoseconds (`Duration` values); `Duration::saturating_sub` is `Nat`
subtraction. -/

-- 5 seconds
def DEFAULT_OLD_LIMIT : Nat := 60
-- 60 seconds
def DEFAULT_INTERVAL : Nat := 5

def NANOS_PER_SEC : Nat := 1000000000

/-- Result of `map.lookup(&key, ANY)` for one key of a tracking map. -/
inductive MapLookup where
  | lookupErr
  | missing
  | found (raw : List Nat)
deriving DecidableEq

/-- One key of a tracking map together with what looking it up returns. -/
structure GCEntry where
  key : List Nat
  value : MapLookup
deriving DecidableEq

/-- The per-key body of the GC scan loop: a key is marked for removal iff
its lookup succeeds, the age extraction succeeds and
`now.saturating_sub(age) > Duration::from_secs(limit)`. Failed lookups
and failed extractions are skipped (`continue`). -/
def gcCheck (extract_age : List Nat → Option Nat) (limit now : Nat)
    (e : GCEntry) : Option (List Nat) :=
  match e.value with
  | MapLookup.found raw =>
      match extract_age raw with
      | some age =>
          if now - age > limit * NANOS_PER_SEC then some e.key else none
      | none => none
  | _ => none

/-- The `to_remove` list built by one GC pass over one map. -/
def gcToRemove (extract_age : List Nat → Option Nat) (limit : Nat) (now : Nat)
    (entries : List GCEntry) : List (List Nat) :=
  entries.filterMap (gcCheck extract_age limit now)

/-- The map contents after the deletion loop of the same pass. -/
def gcSurvivors (extract_age : List Nat → Option Nat) (limit : Nat) (now : Nat)
    (entries : List GCEntry) : List GCEntry :=
  entries.filter (fun e => !(gcToRemove extract_age limit now entries).contains e.key)

/-! ## OVS flow enricher (`retis/src/module/ovs/flow_info.rs`)

The worker loop body is modelled as a step function over the loop-local
state, taking as input the outcome of `recv_timeout`, the `SystemTime`
snapshot of the iteration (in milliseconds) and the daemon's responses.
The sub-iteration `SystemTime::now()` taken inside `FlowInfoRegistry::
lookup` is identified with the iteration snapshot. -/

def MAX_REQUESTS_PER_SEC : Nat := 10
def MAX_FLOW_AGE_SECS : Nat := 5

/-- `min_request_time` in milliseconds. -/
def minRequestTime : Nat := 1000 / MAX_REQUESTS_PER_SEC

/-- `flow_age_time` in milliseconds. -/
def flowAgeTime : Nat := MAX_FLOW_AGE_SECS * 1000

structure EnrichRequest where
  ufid : Ufid
  flow : Nat
  sf_acts : Nat
  ts : Nat
deriving DecidableEq

structure FlowInfoRecord where
  event : OvsFlowInfoEvent
  last_used : Nat
deriving DecidableEq

/-- First record bound to a UFID in the registry's hash map. -/
def findRecord : List (Ufid × FlowInfoRecord) → Ufid → Option FlowInfoRecord
  | [], _ => none
  | (u, r) :: rest, ufid => if u = ufid then some r else findRecord rest ufid

/-- Refresh `last_used` of the entry bound to a UFID. -/
def setLastUsed (data : List (Ufid × FlowInfoRecord)) (ufid : Ufid) (now : Nat) :
    List (Ufid × FlowInfoRecord) :=
  data.map (fun kv =>
    if kv.1 = ufid then (kv.1, { kv.2 with last_used := now }) else kv)

/-- `HashMap::remove` of a UFID. -/
def removeUfid (data : List (Ufid × FlowInfoRecord)) (ufid : Ufid) :
    List (Ufid × FlowInfoRecord) :=
  data.filter (fun kv => !(kv.1 == ufid))

/-- `FlowInfoRegistry::lookup`: a hit refreshes `last_used`; a pointer
mismatch deletes the stale entry and reports a miss. -/
def regLookup (data : List (Ufid × FlowInfoRecord)) (req : EnrichRequest)
    (now : Nat) : Bool × List (Ufid × FlowInfoRecord) :=
  match findRecord data req.ufid with
  | none => (false, data)
  | some r =>
      if r.event.flow = req.flow ∧ r.event.sf_acts = req.sf_acts then
        (true, setLastUsed data req.ufid now)
      else
        (false, removeUfid data req.ufid)

/-- `FlowInfoRegistry::insert`: bind the UFID to the new event, with the
original request's timestamp as `last_used`. -/
def regInsert (data : List (Ufid × FlowInfoRecord)) (req : EnrichRequest)
    (event : OvsFlowInfoEvent) : List (Ufid × FlowInfoRecord) :=
  removeUfid data req.ufid ++ [(req.ufid, { event := event, last_used := req.ts })]

/-- `FlowInfoRegistry::run`: retain entries used after the threshold. -/
def regRun (data : List (Ufid × FlowInfoRecord)) (threshold : Nat) :
    List (Ufid × FlowInfoRecord) :=
  data.filter (fun kv => decide (kv.2.last_used > threshold))

/-- `tasks.iter().position(pred)`. -/
def findPos (p : EnrichRequest → Bool) : List EnrichRequest → Option Nat
  | [] => none
  | t :: ts => if p t then some 0 else (findPos p ts).map (· + 1)

/-- The receive-phase deduplication: remove any pending task with the
arriving request's UFID, then push the request to the tail. -/
def enqueue (tasks : List EnrichRequest) (req : EnrichRequest) :
    List EnrichRequest :=
  match findPos (fun r => r.ufid == req.ufid) tasks with
  | some pos => tasks.eraseIdx pos ++ [req]
  | none => tasks ++ [req]

/-- `tasks.retain(|t| !registry.lookup(t))`, with `lookup`'s mutation of
the registry threaded through in order. -/
def retainNotCached (reg : List (Ufid × FlowInfoRecord)) :
    List EnrichRequest → Nat → List (Ufid × FlowInfoRecord) × List EnrichRequest
  | [], _ => (reg, [])
  | t :: ts, now =>
      let (hit, reg1) := regLookup reg t now
      let (reg2, kept) := retainNotCached reg1 ts now
      (reg2, if hit then kept else t :: kept)

/-- Outcome of one `unixctl.run(..)` call. -/
inductive RunResult where
  | fail
  | empty
  | output (s : String)

structure EnricherState where
  tasks : List EnrichRequest
  next_request : Nat
  wait_time : Nat
  registry : List (Ufid × FlowInfoRecord)

/-- One iteration's inputs: the `recv_timeout` outcome (`some` request or
a timeout), the `SystemTime::now()` snapshot and the daemon responses for
each UFID. A `Disconnected` receive breaks the loop and is not a step. -/
structure StepInput where
  recv : Option EnrichRequest
  now : Nat
  detraceResult : Ufid → RunResult
  getflowResult : Ufid → RunResult

structure StepResult where
  state : EnricherState
  /-- The `unixctl.run` calls issued this iteration, in order:
  `(command, ufid)`. -/
  requests : List (String × Ufid)
  /-- The `ovs-flow-info` events submitted to the events factory. -/
  emitted : List OvsFlowInfoEvent

/-- The body of one worker-loop iteration after the `recv_timeout` match:
`tasks0` is the queue after the receive-phase deduplication. -/
def stepBody (detrace_supported : Bool) (s : EnricherState)
    (tasks0 : List EnrichRequest) (now : Nat)
    (detr getf : Ufid → RunResult) : StepResult :=
  -- Garbage-collect registry.
  let registry := regRun s.registry (now - flowAgeTime)
  -- Remove tasks that we've already reported.
  let (registry, tasks) := retainNotCached registry tasks0 now
  -- Nothing to do.
  if tasks.isEmpty then
    { state := { tasks := tasks, next_request := s.next_request
               , wait_time := 500, registry := registry }
    , requests := [], emitted := [] }
  -- Too soon for another request.
  else if now < s.next_request then
    { state := { tasks := tasks, next_request := s.next_request
               , wait_time := s.next_request - now, registry := registry }
    , requests := [], emitted := [] }
  else
    let next_request := now + minRequestTime
    -- Timestamp of the first request that is worth enriching.
    let front_time := now - flowAgeTime
    let front_pos :=
      (findPos (fun r => decide (r.ts ≥ front_time)) tasks).getD
        (tasks.length - 1)
    let tasks := tasks.drop front_pos
    match tasks with
    | [] =>
        { state := { tasks := [], next_request := next_request
                   , wait_time := s.wait_time, registry := registry }
        , requests := [], emitted := [] }
    | task :: tasks =>
        -- Look up entry in the registry.
        let (hit, registry) := regLookup registry task now
        if hit then
          -- We have already enriched this Ufid.
          { state := { tasks := tasks, next_request := next_request
                     , wait_time := s.wait_time, registry := registry }
          , requests := [], emitted := [] }
        else
          let afterSkip : EnricherState :=
            { tasks := tasks, next_request := next_request
            , wait_time := s.wait_time, registry := registry }
          if detrace_supported then
            match detr task.ufid with
            | RunResult.fail =>
                { state := afterSkip
                , requests := [("ofproto/detrace", task.ufid)], emitted := [] }
            | RunResult.empty =>
                { state := afterSkip
                , requests := [("ofproto/detrace", task.ufid)], emitted := [] }
            | RunResult.output d =>
                let ofpflows := d.splitOn "\n"
                match getf task.ufid with
                | RunResult.fail =>
                    { state := afterSkip
                    , requests := [("ofproto/detrace", task.ufid),
                        ("dpctl/get-flow", task.ufid)]
                    , emitted := [] }
                | RunResult.empty =>
                    { state := afterSkip
                    , requests := [("ofproto/detrace", task.ufid),
                        ("dpctl/get-flow", task.ufid)]
                    , emitted := [] }
                | RunResult.output g =>
                    let flow_info : OvsFlowInfoEvent :=
                      { ufid := task.ufid, flow := task.flow
                      , sf_acts := task.sf_acts, dpflow := g.trim
                      , ofpflows := ofpflows }
                    { state :=
                        { afterSkip with
                          registry := regInsert registry task flow_info }
                    , requests := [("ofproto/detrace", task.ufid),
                        ("dpctl/get-flow", task.ufid)]
                    , emitted := [flow_info] }
          else
            match getf task.ufid with
            | RunResult.fail =>
                { state := afterSkip
                , requests := [("dpctl/get-flow", task.ufid)], emitted := [] }
            | RunResult.empty =>
                { state := afterSkip
                , requests := [("dpctl/get-flow", task.ufid)], emitted := [] }
            | RunResult.output g =>
                let flow_info : OvsFlowInfoEvent :=
                  { ufid := task.ufid, flow := task.flow
                  , sf_acts := task.sf_acts, dpflow := g.trim
                  , ofpflows := [] }
                { state :=
                    { afterSkip with
                      registry := regInsert registry task flow_info }
                , requests := [("dpctl/get-flow", task.ufid)]
                , emitted := [flow_info] }

/-- One iteration of the `ovs-flow-enricher` worker loop
(`FlowEnricher::start`). -/
def step (detrace_supported : Bool) (s : EnricherState) (inp : StepInput) :
    StepResult :=
  let tasks0 :=
    match inp.recv with
    | some req => enqueue s.tasks req
    | none => s.tasks
  stepBody detrace_supported s tasks0 inp.now inp.detraceResult
    inp.getflowResult

/-- Run the worker over a list of iteration inputs, recording each
iteration's clock snapshot and issued requests. -/
def runSteps (detrace_supported : Bool) :
    EnricherState → List StepInput → List (Nat × List (String × Ufid))
  | _, [] => []
  | s, inp :: rest =>
      let r := step detrace_supported s inp
      (inp.now, r.requests) :: runSteps detrace_supported r.state rest

/-! ## File events factory (`src/core/events/file.rs`) -/

/-- `Modelled from the spec:` the `ModuleId` enumeration
(`src/module/module.rs` is missing from the sources); per §3 and §4.5 it
is the closed section-id space: common, kernel, userspace, skb,
skb-drop, skb-tracking, ovs, ovs-flow-info, nft, ct. -/
inductive ModuleId where
  | common
  | kernel
  | userspace
  | skb
  | skbDrop
  | skbTracking
  | ovs
  | ovsFlowInfo
  | nft
  | ct
deriving DecidableEq

/-- `ModuleId::from_str`: resolve a section-id string, failing on unknown
owners. -/
def ModuleId.from_str : String → Except Unit ModuleId
  | "common" => Except.ok ModuleId.common
  | "kernel" => Except.ok ModuleId.kernel
  | "userspace" => Except.ok ModuleId.userspace
  | "skb" => Except.ok ModuleId.skb
  | "skb-drop" => Except.ok ModuleId.skbDrop
  | "skb-tracking" => Except.ok ModuleId.skbTracking
  | "ovs" => Except.ok ModuleId.ovs
  | "ovs-flow-info" => Except.ok ModuleId.ovsFlowInfo
  | "nft" => Except.ok ModuleId.nft
  | "ct" => Except.ok ModuleId.ct
  | _ => Except.error ()

/-- A section factory's `from_json` decoder. The decoded section value is
kept in its structured form. -/
abbrev SectionFactory : Type := Json → Except Unit Json

/-- An event under construction: sections keyed by owner id. -/
abbrev Event : Type := List (ModuleId × Json)

def lookupFactory (factories : List (ModuleId × SectionFactory)) (id : ModuleId) :
    Option SectionFactory :=
  match factories.find? (fun kv => kv.1 == id) with
  | some kv => some kv.2
  | none => none

/-- `Modelled from the spec:` `Event::insert_section` (the `Event` type is
missing from the sources); per §4.5, "Exactly one section per owner id per
event (a repeat is a decoding error)". -/
def Event.insert_section (ev : Event) (id : ModuleId) (v : Json) :
    Except Unit Event :=
  if ev.any (fun kv => kv.1 == id) then Except.error ()
  else Except.ok (ev ++ [(id, v)])

/-- The `for (section, val) in obj.iter()` loop of `parse_line`. -/
def parseSections (factories : List (ModuleId × SectionFactory)) :
    List (String × Json) → Event → Except Unit Event
  | [], ev => Except.ok ev
  | (key, val) :: rest, ev => do
      let id ← ModuleId.from_str key
      match lookupFactory factories id with
      | none => Except.error ()
      | some factory => do
          let decoded ← factory val
          let ev ← Event.insert_section ev id decoded
          parseSections factories rest ev

/-- `parse_line` of `src/core/events/file.rs`: the line must parse to a
JSON object; every top-level key resolves to an owner id whose factory
decodes the value; sections are inserted one per owner id. -/
def parse_line (factories : List (ModuleId × SectionFactory)) :
    Json → Except Unit Event
  | Json.obj fields => parseSections factories fields []
  | _ => Except.error ()

/-- One line as produced by `lines.next()` on the opened file, composed
with `serde_json::from_str`: an I/O error from the reader, a line that is
not valid JSON, or a parsed JSON value. -/
inductive JsonLine where
  | ioError
  | badJson
  | value (j : Json)

/-- `FileEventsFactory`: `contents` stands for the file at `path`;
`lines` is the open reader (`None` before `start()`). -/
structure FileEventsFactory where
  contents : List JsonLine
  lines : Option (List JsonLine)
  section_factories : List (ModuleId × SectionFactory)

/-- `FileEventsFactory::new(path)`. -/
def FileEventsFactory.new (contents : List JsonLine) : FileEventsFactory :=
  { contents := contents, lines := none, section_factories := [] }

/-- `FileEventsFactory::start`: open the reader and install the section
factories. -/
def FileEventsFactory.start (f : FileEventsFactory)
    (factories : List (ModuleId × SectionFactory)) : FileEventsFactory :=
  { f with lines := some f.contents, section_factories := factories }

/-- `FileEventsFactory::next_event`. A line that cannot be read
(`Some(Err(..))`) matches the same `_ => None` arm as end-of-file
(`None`); a read line goes through `parse_line`, whose error is
propagated by `?`. -/
def FileEventsFactory.next_event (f : FileEventsFactory) :
    FileEventsFactory × Except Unit (Option Event) :=
  match f.lines with
  | none => (f, Except.error ())
  | some [] => (f, Except.ok none)
  | some (line :: rest) =>
      let fNext := { f with lines := some rest }
      match line with
      | JsonLine.ioError => (fNext, Except.ok none)
      | JsonLine.badJson => (fNext, Except.error ())
      | JsonLine.value j =>
          match parse_line f.section_factories j with
          | Except.ok ev => (fNext, Except.ok (some ev))
          | Except.error e => (fNext, Except.error e)

/-! ## Concrete instances used in closed checks -/

/-- Distinct kernel symbol names (distinguished by length). -/
def mkSymName (i : Nat) : String :=
  String.mk (List.replicate i 'a')

def mkKprobe (i : Nat) : Probe :=
  Probe.kprobe (mkSymName i)

/-- `PROBE_MAX` pairwise-distinct kernel-function probes. -/
def probesAtCap : List Probe :=
  (List.range PROBE_MAX).map mkKprobe

/-- The manager after registering all of `probesAtCap` from a fresh
manager. -/
def managerAtCap : ProbeManager :=
  { generic_probes := probesAtCap.map (fun p => (p.key, p))
  , generic_hooks := []
  , targeted_probes := [] }

/-- A manager holding a single generic probe. -/
def managerOne : ProbeManager :=
  { generic_probes := [((ProbeTypeTag.kprobe, "a"), Probe.kprobe "a")]
  , generic_hooks := []
  , targeted_probes := [] }

/-- A small well-formed inspector. -/
def insp5 : Inspector :=
  { traceable_funcs := some ["consume_skb", "tcp_v6_connect"]
  , traceable_events := some ["skb:kfree_skb"] }

/-- A concrete UFID. -/
def uC : Ufid := { w0 := 1, w1 := 2, w2 := 3, w3 := 4 }

/-- A concrete enrichment request for `uC`. -/
def reqC : EnrichRequest := { ufid := uC, flow := 1, sf_acts := 2, ts := 10000 }

/-- A fresh enricher-loop state. -/
def s0C : EnricherState :=
  { tasks := [], next_request := 0, wait_time := 500, registry := [] }

/-- One iteration input: `reqC` arrives at t = 10000 ms and the daemon
answers both commands. -/
def inpC : StepInput :=
  { recv := some reqC, now := 10000
  , detraceResult := fun _ => RunResult.output "x"
  , getflowResult := fun _ => RunResult.output "flow" }

/-- A registry holding a fresh enrichment for `uC` with matching
pointers. -/
def regC : List (Ufid × FlowInfoRecord) :=
  [(uC, { event := { ufid := uC, flow := 1, sf_acts := 2, dpflow := "f"
                   , ofpflows := [] }
        , last_used := 9900 })]

/-- The fresh state with `uC` already enriched. -/
def s1C : EnricherState :=
  { tasks := [], next_request := 0, wait_time := 500, registry := regC }

/-! ## Lemmas and theorems -/

theorem asOptNum_jOptNum (x : Option Nat) : asOptNum (jOptNum x) = some x := by
  cases x <;> rfl

theorem asOptStr_jOptStr (x : Option String) : asOptStr (jOptStr x) = some x := by
  cases x <;> rfl

theorem asOptBool_jOptBool (x : Option Bool) : asOptBool (jOptBool x) = some x := by
  cases x <;> rfl

theorem asStrList_jStrList (l : List String) : asStrList (jStrList l) = some l := by
  induction l with
  | nil => rfl
  | cons h t ih =>
      simp only [asStrList, jStrList, List.map_cons] at ih ⊢
      simp [mapStrElems, asStrElem, ih]

theorem asNumList_jNumList (l : List Nat) : asNumList (jNumList l) = some l := by
  induction l with
  | nil => rfl
  | cons h t ih =>
      simp only [asNumList, jNumList, List.map_cons] at ih ⊢
      simp [mapNumElems, asNumElem, ih]

theorem skbDecodeL2L3_skbFields (e : SkbEvent) :
    skbDecodeL2L3 (skbFields e) =
      some (e.etype, e.src, e.dst, e.saddr, e.daddr, e.ip_version, e.l3_len) := by
  simp [skbDecodeL2L3, skbFields, getOptNum, getOptStr, lookupJson,
    asOptNum_jOptNum, asOptStr_jOptStr]

theorem skbDecodeL4_skbFields (e : SkbEvent) :
    skbDecodeL4 (skbFields e) =
      some (e.protocol, e.sport, e.dport, e.tcp_seq, e.tcp_ack_seq,
        e.tcp_window, e.tcp_flags) := by
  simp [skbDecodeL4, skbFields, getOptNum, lookupJson, asOptNum_jOptNum]

theorem skbDecodeDev_skbFields (e : SkbEvent) :
    skbDecodeDev (skbFields e) =
      some (e.udp_len, e.icmp_type, e.icmp_code, e.dev_name, e.ifindex,
        e.rx_ifindex) := by
  simp [skbDecodeDev, skbFields, getOptNum, getOptStr, lookupJson,
    asOptNum_jOptNum, asOptStr_jOptStr]

theorem skbDecodeMeta_skbFields (e : SkbEvent) :
    skbDecodeMeta (skbFields e) =
      some (e.netns, e.cloned, e.fclone, e.users, e.dataref, e.drop_reason) := by
  simp [skbDecodeMeta, skbFields, getOptNum, getOptBool, lookupJson,
    asOptNum_jOptNum, asOptBool_jOptBool]

theorem skb_roundtrip (e : SkbEvent) :
    SkbEvent.from_json (SkbEvent.to_json e) = some e := by
  simp [SkbEvent.from_json, SkbEvent.to_json, skbDecodeL2L3_skbFields,
    skbDecodeL4_skbFields, skbDecodeDev_skbFields, skbDecodeMeta_skbFields]

theorem skb_drop_roundtrip (e : SkbDropEvent) :
    SkbDropEvent.from_json (SkbDropEvent.to_json e) = some e := by
  simp [SkbDropEvent.from_json, SkbDropEvent.to_json, getOptStr, getStr,
    lookupJson, asOptStr_jOptStr, asStr]

theorem skb_tracking_roundtrip (e : SkbTrackingEvent) :
    SkbTrackingEvent.from_json (SkbTrackingEvent.to_json e) = some e := by
  simp [SkbTrackingEvent.from_json, SkbTrackingEvent.to_json, getNum, getOptNum,
    lookupJson, asOptNum_jOptNum, asNum]

theorem asUfid_jUfid (u : Ufid) : asUfid (jUfid u) = some u := rfl

theorem ovs_flow_info_roundtrip (e : OvsFlowInfoEvent) :
    OvsFlowInfoEvent.from_json (OvsFlowInfoEvent.to_json e) = some e := by
  simp [OvsFlowInfoEvent.from_json, OvsFlowInfoEvent.to_json, getUfid, getNum,
    getStr, getStrList, lookupJson, asUfid_jUfid, asNum, asStr,
    asStrList_jStrList]

theorem kernel_roundtrip (e : KernelEvent) :
    KernelEvent.from_json (KernelEvent.to_json e) = some e := by
  simp [KernelEvent.from_json, KernelEvent.to_json, getNum, getNumList,
    lookupJson, asNum, asNumList_jNumList]

theorem common_roundtrip (e : CommonEvent) :
    CommonEvent.from_json (CommonEvent.to_json e) = some e := by
  simp [CommonEvent.from_json, CommonEvent.to_json, getNum, lookupJson, asNum]

/-- C1: for every section value of the skb, skb-drop, skb-tracking,
ovs-flow-info, kernel and common sections (hence in particular every one
produced by `from_raw`), serializing with `to_json` and re-decoding with
`from_json` is the identity, the field names being those of the Rust
structs. -/
theorem C1_sections_roundtrip :
    (∀ e : SkbEvent, SkbEvent.from_json (SkbEvent.to_json e) = some e) ∧
    (∀ e : SkbDropEvent, SkbDropEvent.from_json (SkbDropEvent.to_json e) = some e) ∧
    (∀ e : SkbTrackingEvent,
      SkbTrackingEvent.from_json (SkbTrackingEvent.to_json e) = some e) ∧
    (∀ e : OvsFlowInfoEvent,
      OvsFlowInfoEvent.from_json (OvsFlowInfoEvent.to_json e) = some e) ∧
    (∀ e : KernelEvent, KernelEvent.from_json (KernelEvent.to_json e) = some e) ∧
    (∀ e : CommonEvent, CommonEvent.from_json (CommonEvent.to_json e) = some e) :=
  ⟨skb_roundtrip, skb_drop_roundtrip, skb_tracking_roundtrip,
    ovs_flow_info_roundtrip, kernel_roundtrip, common_roundtrip⟩

/-! ### Probe manager lemmas -/

theorem containsKey_eq_false_iff (l : List ((ProbeTypeTag × String) × Probe))
    (k : ProbeTypeTag × String) :
    containsKey l k = false ↔ k ∉ l.map Prod.fst := by
  simp only [containsKey, List.any_eq_false, List.mem_map, beq_iff_eq]
  constructor
  · rintro h ⟨kv, hkv, hfst⟩
    exact h kv hkv hfst
  · intro h kv hkv hfst
    exact h ⟨kv, hkv, hfst⟩

theorem containsKey_removeKey (l : List ((ProbeTypeTag × String) × Probe))
    (k : ProbeTypeTag × String) :
    containsKey (removeKey l k) k = false := by
  simp only [containsKey, removeKey, List.any_eq_false, List.mem_filter]
  intro kv hkv
  simpa using hkv.2

theorem length_removeKey_lt (l : List ((ProbeTypeTag × String) × Probe))
    (k : ProbeTypeTag × String) (h : containsKey l k = true) :
    (removeKey l k).length < l.length := by
  simp only [containsKey, List.any_eq_true] at h
  obtain ⟨kv, hkv, hbeq⟩ := h
  refine List.length_filter_lt_length_iff_exists.mpr ⟨kv, hkv, ?_⟩
  simp [hbeq]

theorem containsKey_insertIfAbsent_self (l : List ((ProbeTypeTag × String) × Probe))
    (k : ProbeTypeTag × String) (p : Probe) :
    containsKey (insertIfAbsent l k p) k = true := by
  unfold insertIfAbsent
  by_cases h : containsKey l k = true
  · simp [h]
  · simp only [h, Bool.false_eq_true, if_false]
    simp [containsKey]

theorem length_insertIfAbsent_le (l : List ((ProbeTypeTag × String) × Probe))
    (k : ProbeTypeTag × String) (p : Probe) :
    (insertIfAbsent l k p).length ≤ l.length + 1 := by
  unfold insertIfAbsent
  split <;> simp

theorem registerHookInSets_notFound (n : Nat) (h : Hook)
    (k : ProbeTypeTag × String) (u : Bool) (sets : List ProbeSet)
    (hall : ∀ set ∈ sets, containsKey set.probes k = false) :
    registerHookInSets n h k u sets = SetsResult.notFound := by
  induction sets with
  | nil => rfl
  | cons s rest ih =>
      have hs := hall s (List.mem_cons_self s rest)
      rw [registerHookInSets, hs]
      simp only [Bool.false_eq_true, if_false]
      rw [ih (fun t ht => hall t (List.mem_cons_of_mem s ht))]

theorem addAllOk_spec (ps : List Probe) :
    ∀ m : ProbeManager,
      m.targeted_probes = [] →
      ((m.generic_probes.map Prod.fst) ++ ps.map Probe.key).Nodup →
      m.generic_probes.length + ps.length ≤ PROBE_MAX →
      addAllOk m ps =
        some { m with generic_probes :=
          m.generic_probes ++ ps.map (fun p => (p.key, p)) } := by
  induction ps with
  | nil =>
      intro m _ _ _
      simp [addAllOk]
  | cons p ps ih =>
      intro m ht hnd hlen
      have htarg : m.targeted_probes.any
          (fun set => containsKey set.probes p.key) = false := by
        simp [ht]
      have hsize : ¬ m.size ≥ PROBE_MAX := by
        have : m.size = m.generic_probes.length := by
          simp [ProbeManager.size, ht]
        simp only [List.length_cons] at hlen
        omega
      have hmem : containsKey m.generic_probes p.key = false := by
        rw [containsKey_eq_false_iff]
        intro hin
        have hdisj := (List.nodup_append.mp hnd).2.2
        exact hdisj hin (by simp)
      rw [addAllOk, ProbeManager.add_probe]
      simp only [htarg, Bool.false_eq_true, if_false,
        ProbeManager.check_probe_max, hsize, if_false]
      rw [insertIfAbsent, hmem]
      simp only [Bool.false_eq_true, if_false]
      rw [ih]
      · simp
      · simp [ht]
      · simp only [List.map_append, List.map_cons, List.map_nil,
          List.append_assoc, List.singleton_append]
        simpa using hnd
      · simp only [List.length_append, List.length_cons, List.length_nil]
        simp only [List.length_cons] at hlen
        omega

theorem mkSymName_injective : Function.Injective mkSymName := by
  intro a b h
  have h2 : (mkSymName a).data.length = (mkSymName b).data.length := by rw [h]
  simpa [mkSymName] using h2

theorem mkKprobe_key_inj (a b : Nat) (h : (mkKprobe a).key = (mkKprobe b).key) :
    a = b := by
  apply mkSymName_injective
  simpa [mkKprobe, Probe.key, Probe.typeTag, Probe.attachName] using h

theorem probesAtCap_keys_nodup : (probesAtCap.map Probe.key).Nodup := by
  rw [probesAtCap, List.map_map]
  exact List.Nodup.map (fun a b h => mkKprobe_key_inj a b h) (List.nodup_range _)

theorem probesAtCap_length : probesAtCap.length = PROBE_MAX := by
  simp [probesAtCap]

theorem managerAtCap_size : managerAtCap.size = PROBE_MAX := by
  simp [ProbeManager.size, managerAtCap, probesAtCap]

theorem addAllOk_probesAtCap :
    addAllOk emptyManager probesAtCap = some managerAtCap := by
  rw [addAllOk_spec probesAtCap emptyManager rfl
    (by simpa [emptyManager] using probesAtCap_keys_nodup)
    (by simp [emptyManager, probesAtCap_length])]
  simp [managerAtCap, emptyManager]

theorem add_probe_at_cap (m : ProbeManager) (p : Probe)
    (ht : m.targeted_probes = []) (hs : m.size ≥ PROBE_MAX) :
    m.add_probe p =
      (m, Except.error (ManagerError.reachedMaximumCapacity PROBE_MAX)) := by
  rw [ProbeManager.add_probe]
  simp only [ht, List.any_nil, Bool.false_eq_true, if_false,
    ProbeManager.check_probe_max, hs, if_true]

/-- C2 counterexample: at a manager state reached by registering
`PROBE_MAX` distinct probes, re-registering one of the already-registered
(generic-set) probes does not return success: `add_probe` calls
`check_probe_max` before testing the generic set, so it fails with the
capacity error even though the probe is already present. -/
theorem C2_counterexample :
    addAllOk emptyManager probesAtCap = some managerAtCap ∧
    containsKey managerAtCap.generic_probes (mkKprobe 0).key = true ∧
    managerAtCap.size = PROBE_MAX ∧
    (managerAtCap.add_probe (mkKprobe 0)).2 =
      Except.error (ManagerError.reachedMaximumCapacity PROBE_MAX) := by
  refine ⟨addAllOk_probesAtCap, ?_, managerAtCap_size, ?_⟩
  · simp only [managerAtCap, containsKey, List.any_eq_true]
    refine ⟨((mkKprobe 0).key, mkKprobe 0), ?_, by simp⟩
    apply List.mem_map.mpr
    refine ⟨mkKprobe 0, ?_, rfl⟩
    rw [probesAtCap]
    exact List.mem_map.mpr ⟨0, List.mem_range.mpr (by decide), rfl⟩
  · rw [add_probe_at_cap managerAtCap _ rfl managerAtCap_size.ge]

/-- C2 (amended): re-registering an already-registered probe via
`register_probe` is a no-op success whenever the probe sits in a targeted
set (regardless of the probe count), or sits in the generic set while the
total probe count is below `PROBE_MAX`; at `PROBE_MAX`, re-registering a
generic-set probe instead fails with the capacity error. -/
theorem C2_register_probe_idempotent (m : ProbeManager) (p : Probe)
    (h : (m.targeted_probes.any (fun set => containsKey set.probes p.key)) = true ∨
      (containsKey m.generic_probes p.key = true ∧ m.size < PROBE_MAX)) :
    m.add_probe p = (m, Except.ok ()) := by
  rw [ProbeManager.add_probe]
  rcases h with h | ⟨hc, hsize⟩
  · simp [h]
  · by_cases ht : (m.targeted_probes.any
        (fun set => containsKey set.probes p.key)) = true
    · simp [ht]
    · simp only [ht, Bool.false_eq_true, if_false,
        ProbeManager.check_probe_max, Nat.not_le.mpr hsize, ge_iff_le, if_false]
      rw [insertIfAbsent, hc]
      simp

theorem C2_witness :
    managerOne.add_probe (Probe.kprobe "a") = (managerOne, Except.ok ()) :=
  C2_register_probe_idempotent managerOne (Probe.kprobe "a")
    (Or.inr ⟨by decide, by decide⟩)

theorem freshKey_not_in_probesAtCap :
    (mkKprobe PROBE_MAX).key ∉ probesAtCap.map Probe.key := by
  intro hmem
  rw [probesAtCap, List.map_map] at hmem
  obtain ⟨i, hi, heq⟩ := List.mem_map.mp hmem
  have := mkKprobe_key_inj i PROBE_MAX heq
  subst this
  exact absurd (List.mem_range.mp hi) (lt_irrefl _)

/-- C3: registering `PROBE_MAX` pairwise-distinct probes from a fresh
manager all succeed, and the next registration of a further distinct probe
fails with the "reached maximum capacity" error while leaving the
manager's probe sets exactly as they were. -/
theorem C3_probe_cap_enforced (ps : List Probe) (p' : Probe)
    (hlen : ps.length = PROBE_MAX)
    (hnd : (ps.map Probe.key).Nodup)
    (_hfresh : p'.key ∉ ps.map Probe.key) :
    ∃ m : ProbeManager, addAllOk emptyManager ps = some m ∧
      m.add_probe p' =
        (m, Except.error (ManagerError.reachedMaximumCapacity PROBE_MAX)) := by
  have hspec := addAllOk_spec ps emptyManager rfl
    (by simpa [emptyManager] using hnd) (by simp [emptyManager, hlen])
  refine ⟨_, hspec, ?_⟩
  exact add_probe_at_cap _ _ rfl (by simp [ProbeManager.size, emptyManager, hlen])

theorem C3_witness :
    probesAtCap.length = PROBE_MAX ∧
    (probesAtCap.map Probe.key).Nodup ∧
    (mkKprobe PROBE_MAX).key ∉ probesAtCap.map Probe.key ∧
    ∃ m : ProbeManager, addAllOk emptyManager probesAtCap = some m ∧
      m.add_probe (mkKprobe PROBE_MAX) =
        (m, Except.error (ManagerError.reachedMaximumCapacity PROBE_MAX)) :=
  ⟨probesAtCap_length, probesAtCap_keys_nodup, freshKey_not_in_probesAtCap,
    C3_probe_cap_enforced probesAtCap (mkKprobe PROBE_MAX) probesAtCap_length
      probesAtCap_keys_nodup freshKey_not_in_probesAtCap⟩

theorem register_hook_to_new_set (m1 : ProbeManager) (p : Probe) (h : Hook)
    (hk : p.isUsdt = false)
    (hnt : ∀ set ∈ m1.targeted_probes, containsKey set.probes p.key = false)
    (hsize : (removeKey m1.generic_probes p.key).length +
      ((m1.targeted_probes.map (fun s => s.probes.length)).sum) < PROBE_MAX)
    (hhooks : m1.generic_hooks.length < HOOK_MAX) :
    m1.register_hook_to h p =
      ({ m1 with
          generic_probes := removeKey m1.generic_probes p.key
        , targeted_probes := m1.targeted_probes ++
            [{ probes := [(p.key, p)], hooks := [h]
             , supports_generic_hooks := true }] }, Except.ok ()) := by
  simp only [ProbeManager.register_hook_to, ProbeManager.check_probe_max,
    ProbeManager.size]
  rw [if_neg (Nat.not_le.mpr hhooks)]
  rw [registerHookInSets_notFound _ _ _ _ _ hnt]
  rw [if_neg (Nat.not_le.mpr hsize)]
  simp [hk]

/-- C4: for every kernel probe P and hook H, starting from a state where
P is not yet in any targeted set and both caps have room, the sequence
`register_probe(P)` then `register_hook_for(P, H)` succeeds, leaves P
absent from the generic set and present in exactly one targeted set whose
hook list equals `[H]`. -/
theorem C4_hook_promotion (m : ProbeManager) (p : Probe) (h : Hook)
    (hk : p.isUsdt = false)
    (hnt : ∀ set ∈ m.targeted_probes, containsKey set.probes p.key = false)
    (hsize : m.size < PROBE_MAX)
    (hhooks : m.generic_hooks.length < HOOK_MAX) :
    (m.add_probe p).2 = Except.ok () ∧
    ((m.add_probe p).1.register_hook_to h p).2 = Except.ok () ∧
    containsKey ((m.add_probe p).1.register_hook_to h p).1.generic_probes
      p.key = false ∧
    ((m.add_probe p).1.register_hook_to h p).1.targeted_probes.filter
        (fun set => containsKey set.probes p.key) =
      [{ probes := [(p.key, p)], hooks := [h]
       , supports_generic_hooks := true }] := by
  have htarg : (m.targeted_probes.any
      (fun set => containsKey set.probes p.key)) = false := by
    simp only [List.any_eq_false]
    intro s hs
    simp [hnt s hs]
  have hadd : m.add_probe p =
      ({ m with generic_probes := insertIfAbsent m.generic_probes p.key p },
        Except.ok ()) := by
    rw [ProbeManager.add_probe]
    simp only [htarg, Bool.false_eq_true, if_false,
      ProbeManager.check_probe_max, Nat.not_le.mpr hsize, ge_iff_le, if_false]
  have hremlen : (removeKey (insertIfAbsent m.generic_probes p.key p)
      p.key).length ≤ m.generic_probes.length := by
    have h1 := length_removeKey_lt _ p.key
      (containsKey_insertIfAbsent_self m.generic_probes p.key p)
    have h2 := length_insertIfAbsent_le m.generic_probes p.key p
    omega
  have hreg := register_hook_to_new_set
    { m with generic_probes := insertIfAbsent m.generic_probes p.key p }
    p h hk hnt
    (by
      show (removeKey (insertIfAbsent m.generic_probes p.key p) p.key).length +
        ((m.targeted_probes.map (fun s => s.probes.length)).sum) < PROBE_MAX
      simp only [ProbeManager.size] at hsize
      omega)
    hhooks
  rw [hadd]
  dsimp only
  rw [hreg]
  refine ⟨rfl, rfl, containsKey_removeKey _ _, ?_⟩
  rw [List.filter_append]
  have hnil : m.targeted_probes.filter
      (fun set => containsKey set.probes p.key) = [] := by
    rw [List.filter_eq_nil_iff]
    intro s hs
    simp [hnt s hs]
  rw [hnil]
  simp [containsKey]

theorem C4_witness :
    (emptyManager.add_probe (Probe.kprobe "a")).2 = Except.ok () ∧
    ((emptyManager.add_probe (Probe.kprobe "a")).1.register_hook_to
      (Hook.mk [0]) (Probe.kprobe "a")).2 = Except.ok () ∧
    containsKey ((emptyManager.add_probe (Probe.kprobe "a")).1.register_hook_to
      (Hook.mk [0]) (Probe.kprobe "a")).1.generic_probes
      (Probe.kprobe "a").key = false ∧
    ((emptyManager.add_probe (Probe.kprobe "a")).1.register_hook_to
        (Hook.mk [0]) (Probe.kprobe "a")).1.targeted_probes.filter
        (fun set => containsKey set.probes (Probe.kprobe "a").key) =
      [{ probes := [((Probe.kprobe "a").key, Probe.kprobe "a")]
       , hooks := [Hook.mk [0]], supports_generic_hooks := true }] :=
  C4_hook_promotion emptyManager (Probe.kprobe "a") (Hook.mk [0]) rfl
    (by simp [emptyManager]) (by decide) (by decide)

/-! ### Tracking GC theorems -/

theorem gcCheck_eq_some (extract_age : List Nat → Option Nat) (limit now : Nat)
    (e : GCEntry) (k : List Nat) :
    gcCheck extract_age limit now e = some k ↔
      ∃ raw age, e.value = MapLookup.found raw ∧ extract_age raw = some age ∧
        now - age > limit * NANOS_PER_SEC ∧ k = e.key := by
  rcases hv : e.value with _ | _ | raw
  · simp [gcCheck, hv]
  · simp [gcCheck, hv]
  · rcases hx : extract_age raw with _ | age
    · simp [gcCheck, hv, hx]
    · by_cases hc : now - age > limit * NANOS_PER_SEC
      · simp only [gcCheck, hv, hx, if_pos hc]
        constructor
        · intro h
          exact ⟨raw, age, rfl, hx, hc, (Option.some_inj.mp h).symm⟩
        · rintro ⟨raw2, age2, hv2, hx2, hc2, hk⟩
          exact congrArg some hk.symm
      · simp only [gcCheck, hv, hx, if_neg hc]
        constructor
        · intro h
          exact absurd h (by simp)
        · rintro ⟨raw2, age2, hv2, hx2, hc2, hk⟩
          obtain rfl : raw = raw2 := by
            simpa using hv2
          rw [hx] at hx2
          obtain rfl : age = age2 := by
            simpa using hx2
          exact absurd hc2 hc

/-- C6: on a GC pass with monotonic-clock snapshot `now`, a map entry
whose lookup and age extraction succeed is collected iff
`now - age > limit` (seconds, compared in nanoseconds with saturating
subtraction); entries whose lookup or age extraction fails are never
collected; and the default interval is 5 s and the default age limit
60 s. -/
theorem C6_gc_removal (extract_age : List Nat → Option Nat) (limit now : Nat)
    (entries : List GCEntry) (e : GCEntry) (he : e ∈ entries)
    (hnd : (entries.map GCEntry.key).Nodup) :
    (e.key ∈ gcToRemove extract_age limit now entries ↔
      ∃ raw age, e.value = MapLookup.found raw ∧ extract_age raw = some age ∧
        now - age > limit * NANOS_PER_SEC) ∧
    DEFAULT_INTERVAL = 5 ∧ DEFAULT_OLD_LIMIT = 60 := by
  refine ⟨?_, rfl, rfl⟩
  constructor
  · intro hmem
    obtain ⟨a, ha, hfa⟩ := List.mem_filterMap.mp hmem
    obtain ⟨raw, age, hv, hx, hc, hkey⟩ :=
      (gcCheck_eq_some extract_age limit now a e.key).mp hfa
    have hae : a = e := List.inj_on_of_nodup_map hnd ha he hkey.symm
    subst hae
    exact ⟨raw, age, hv, hx, hc⟩
  · rintro ⟨raw, age, hv, hx, hc⟩
    refine List.mem_filterMap.mpr ⟨e, he, ?_⟩
    exact (gcCheck_eq_some extract_age limit now e e.key).mpr
      ⟨raw, age, hv, hx, hc, rfl⟩

theorem C6_witness :
    ((GCEntry.mk [1] (MapLookup.found [0])).key ∈
        gcToRemove (fun _ => some 0) 60 61000000000
          [GCEntry.mk [1] (MapLookup.found [0]),
           GCEntry.mk [2] MapLookup.lookupErr] ↔
      ∃ raw age, (GCEntry.mk [1] (MapLookup.found [0])).value =
          MapLookup.found raw ∧ (fun _ => some 0) raw = some age ∧
          61000000000 - age > 60 * NANOS_PER_SEC) ∧
    DEFAULT_INTERVAL = 5 ∧ DEFAULT_OLD_LIMIT = 60 :=
  C6_gc_removal (fun _ => some 0) 60 61000000000
    [GCEntry.mk [1] (MapLookup.found [0]), GCEntry.mk [2] MapLookup.lookupErr]
    (GCEntry.mk [1] (MapLookup.found [0])) (by decide) (by decide)

/-! ### Kernel inspector event lookup theorems -/

/-- C9 counterexample: with two traceable events both ending in `:foo`
the suffix match is not unique, yet `find_matching_event` still returns a
full name (the first match in iteration order) instead of none, refuting
the "exactly when a unique traceable event matches" reading. -/
theorem C9_counterexample :
    find_matching_event (Inspector.mk none (some ["a:foo", "b:foo"])) "foo" =
      some "a:foo" ∧
    (["a:foo", "b:foo"].filter
      (fun e => (":" ++ "foo").data.isSuffixOf e.data)).length = 2 := by
  constructor
  · rfl
  · decide

/-- C9 (amended): `find_matching_event` returns a full `group:name` iff
the traceable-events file is present and at least one traceable event
ends with the suffix `":name"` (the first such event in iteration order is
returned); it returns none when the file is absent or no event matches. -/
theorem C9_find_event_suffix (insp : Inspector) (name : String) :
    (insp.traceable_events = none → find_matching_event insp name = none) ∧
    (∀ events, insp.traceable_events = some events →
      (((find_matching_event insp name).isSome = true) ↔
        ∃ e ∈ events, (":" ++ name).data.isSuffixOf e.data = true) ∧
      (∀ r, find_matching_event insp name = some r →
        r ∈ events ∧ (":" ++ name).data.isSuffixOf r.data = true)) := by
  constructor
  · intro h
    simp [find_matching_event, h]
  · intro events hev
    constructor
    · rw [find_matching_event, hev]
      simp [List.find?_isSome]
    · intro r hr
      rw [find_matching_event, hev] at hr
      dsimp only at hr
      have h2 := List.find?_some hr
      exact ⟨List.mem_of_find?_eq_some hr, h2⟩

theorem C9_witness :
    (find_matching_event
      (Inspector.mk none (some ["skb:kfree_skb"])) "kfree_skb").isSome = true := by
  have h := (C9_find_event_suffix
    (Inspector.mk none (some ["skb:kfree_skb"])) "kfree_skb").2
    ["skb:kfree_skb"] rfl
  exact h.1.mpr ⟨"skb:kfree_skb", by decide, by decide⟩

/-! ### Probe parsing lemmas -/

theorem splitOnceColon_append (pre suf : List Char) (h : ':' ∉ pre) :
    splitOnceColon (pre ++ ':' :: suf) = some (pre, suf) := by
  induction pre with
  | nil => simp [splitOnceColon]
  | cons c cs ih =>
      have hc : c ≠ ':' := fun hh => h (hh ▸ List.mem_cons_self c cs)
      simp only [List.cons_append, splitOnceColon, if_neg hc, List.append_eq]
      rw [ih (fun hm => h (List.mem_cons_of_mem c hm))]

theorem splitOnceColon_none (l : List Char) (h : ':' ∉ l) :
    splitOnceColon l = none := by
  induction l with
  | nil => rfl
  | cons c cs ih =>
      have hc : c ≠ ':' := fun hh => h (hh ▸ List.mem_cons_self c cs)
      simp only [splitOnceColon, if_neg hc]
      rw [ih (fun hm => h (List.mem_cons_of_mem c hm))]

theorem globMatch_exact : ∀ (p : List Char), '*' ∉ p → ∀ (s : List Char),
    (globMatch p s = true ↔ p = s) := by
  intro p
  induction p with
  | nil =>
      intro _ s
      cases s <;> simp [globMatch]
  | cons c ps ih =>
      intro hp s
      have hc : c ≠ '*' := fun hh => hp (hh ▸ List.mem_cons_self c ps)
      have hps : '*' ∉ ps := fun hm => hp (List.mem_cons_of_mem c hm)
      cases s with
      | nil => simp [globMatch, if_neg hc]
      | cons a as =>
          simp only [globMatch, if_neg hc, Bool.and_eq_true, beq_iff_eq]
          rw [ih hps as]
          simp

theorem globMatch_char_mem : ∀ (p s : List Char), globMatch p s = true →
    ∀ c ∈ p, c ≠ '*' → c ∈ s := by
  intro p
  induction p with
  | nil =>
      intro s _ c hc _
      exact absurd hc (List.not_mem_nil c)
  | cons b ps ih =>
      by_cases hb : b = '*'
      · subst hb
        intro s
        induction s with
        | nil =>
            intro h c hc hne
            simp only [globMatch, if_pos rfl] at h
            have hcps : c ∈ ps := by
              rcases List.mem_cons.mp hc with h1 | h1
              · exact absurd h1 hne
              · exact h1
            exact ih [] h c hcps hne
        | cons a as ihs =>
            intro h c hc hne
            have hor : globMatch ps (a :: as) = true ∨
                globMatch ('*' :: ps) as = true := by
              simpa [globMatch] using h
            have hcps : c ∈ ps := by
              rcases List.mem_cons.mp hc with h1 | h1
              · exact absurd h1 hne
              · exact h1
            rcases hor with h2 | h2
            · exact ih (a :: as) h2 c hcps hne
            · exact List.mem_cons_of_mem a (ihs h2 c hc hne)
      · intro s h c hc hne
        cases s with
        | nil => simp [globMatch, if_neg hb] at h
        | cons a as =>
            simp only [globMatch, if_neg hb, Bool.and_eq_true, beq_iff_eq] at h
            rcases List.mem_cons.mp hc with rfl | hcps
            · exact h.1 ▸ List.mem_cons_self a as
            · exact List.mem_cons_of_mem a (ih as h.2 c hcps hne)

theorem colon_append_inj : ∀ (l1 r1 l2 r2 : List Char), ':' ∉ l1 → ':' ∉ l2 →
    l1 ++ ':' :: r1 = l2 ++ ':' :: r2 → l1 = l2 ∧ r1 = r2 := by
  intro l1
  induction l1 with
  | nil =>
      intro r1 l2 r2 _ h2 heq
      cases l2 with
      | nil => simpa using heq
      | cons c cs =>
          rw [List.nil_append, List.cons_append] at heq
          injection heq with ha _
          exact absurd (ha ▸ List.mem_cons_self c cs) h2
  | cons c cs ih =>
      intro r1 l2 r2 h1 h2 heq
      cases l2 with
      | nil =>
          rw [List.cons_append, List.nil_append] at heq
          injection heq with ha _
          exact absurd (ha.symm ▸ List.mem_cons_self c cs) h1
      | cons d ds =>
          rw [List.cons_append, List.cons_append] at heq
          injection heq with ha hb
          obtain ⟨hl, hr⟩ := ih r1 ds r2
            (fun hm => h1 (List.mem_cons_of_mem c hm))
            (fun hm => h2 (List.mem_cons_of_mem d hm)) hb
          exact ⟨by rw [ha, hl], hr⟩

theorem parse_probe_kprobe_eq (insp : Inspector) (rest : String)
    (f : Symbol → Bool) :
    parse_probe insp ("kprobe:" ++ rest) f = resolveTarget insp PType.kprobe rest f := by
  have hd : ("kprobe:" ++ rest).data = "kprobe".data ++ ':' :: rest.data := by
    rw [String.data_append]
    have h0 : "kprobe:".data = "kprobe".data ++ [':'] := by decide
    rw [h0, List.append_assoc]
    rfl
  have hms : String.mk rest.data = rest := rfl
  have hsplit : splitOnceColon ("kprobe:" ++ rest).data =
      some ("kprobe".data, rest.data) := by
    rw [hd]
    exact splitOnceColon_append "kprobe".data rest.data (by decide)
  simp at hsplit
  simp [parse_probe, resolveTarget, hsplit, hms, Bind.bind, Except.bind]

theorem parse_probe_k_eq (insp : Inspector) (rest : String)
    (f : Symbol → Bool) :
    parse_probe insp ("k:" ++ rest) f = resolveTarget insp PType.kprobe rest f := by
  have hd : ("k:" ++ rest).data = "k".data ++ ':' :: rest.data := by
    rw [String.data_append]
    have h0 : "k:".data = "k".data ++ [':'] := by decide
    rw [h0, List.append_assoc]
    rfl
  have hms : String.mk rest.data = rest := rfl
  have hsplit : splitOnceColon ("k:" ++ rest).data =
      some ("k".data, rest.data) := by
    rw [hd]
    exact splitOnceColon_append "k".data rest.data (by decide)
  simp at hsplit
  simp [parse_probe, resolveTarget, hsplit, hms, Bind.bind, Except.bind]

theorem parse_probe_kretprobe_eq (insp : Inspector) (rest : String)
    (f : Symbol → Bool) :
    parse_probe insp ("kretprobe:" ++ rest) f = resolveTarget insp PType.kretprobe rest f := by
  have hd : ("kretprobe:" ++ rest).data = "kretprobe".data ++ ':' :: rest.data := by
    rw [String.data_append]
    have h0 : "kretprobe:".data = "kretprobe".data ++ [':'] := by decide
    rw [h0, List.append_assoc]
    rfl
  have hms : String.mk rest.data = rest := rfl
  have hsplit : splitOnceColon ("kretprobe:" ++ rest).data =
      some ("kretprobe".data, rest.data) := by
    rw [hd]
    exact splitOnceColon_append "kretprobe".data rest.data (by decide)
  simp at hsplit
  simp [parse_probe, resolveTarget, hsplit, hms, Bind.bind, Except.bind]

theorem parse_probe_kr_eq (insp : Inspector) (rest : String)
    (f : Symbol → Bool) :
    parse_probe insp ("kr:" ++ rest) f = resolveTarget insp PType.kretprobe rest f := by
  have hd : ("kr:" ++ rest).data = "kr".data ++ ':' :: rest.data := by
    rw [String.data_append]
    have h0 : "kr:".data = "kr".data ++ [':'] := by decide
    rw [h0, List.append_assoc]
    rfl
  have hms : String.mk rest.data = rest := rfl
  have hsplit : splitOnceColon ("kr:" ++ rest).data =
      some ("kr".data, rest.data) := by
    rw [hd]
    exact splitOnceColon_append "kr".data rest.data (by decide)
  simp at hsplit
  simp [parse_probe, resolveTarget, hsplit, hms, Bind.bind, Except.bind]

theorem parse_probe_rawtp_eq (insp : Inspector) (rest : String)
    (f : Symbol → Bool) :
    parse_probe insp ("raw_tracepoint:" ++ rest) f = resolveTarget insp PType.rawTracepoint rest f := by
  have hd : ("raw_tracepoint:" ++ rest).data = "raw_tracepoint".data ++ ':' :: rest.data := by
    rw [String.data_append]
    have h0 : "raw_tracepoint:".data = "raw_tracepoint".data ++ [':'] := by decide
    rw [h0, List.append_assoc]
    rfl
  have hms : String.mk rest.data = rest := rfl
  have hsplit : splitOnceColon ("raw_tracepoint:" ++ rest).data =
      some ("raw_tracepoint".data, rest.data) := by
    rw [hd]
    exact splitOnceColon_append "raw_tracepoint".data rest.data (by decide)
  simp at hsplit
  simp [parse_probe, resolveTarget, hsplit, hms, Bind.bind, Except.bind]

theorem parse_probe_tp_eq (insp : Inspector) (rest : String)
    (f : Symbol → Bool) :
    parse_probe insp ("tp:" ++ rest) f = resolveTarget insp PType.rawTracepoint rest f := by
  have hd : ("tp:" ++ rest).data = "tp".data ++ ':' :: rest.data := by
    rw [String.data_append]
    have h0 : "tp:".data = "tp".data ++ [':'] := by decide
    rw [h0, List.append_assoc]
    rfl
  have hms : String.mk rest.data = rest := rfl
  have hsplit : splitOnceColon ("tp:" ++ rest).data =
      some ("tp".data, rest.data) := by
    rw [hd]
    exact splitOnceColon_append "tp".data rest.data (by decide)
  simp at hsplit
  simp [parse_probe, resolveTarget, hsplit, hms, Bind.bind, Except.bind]

theorem parse_probe_single_colon (insp : Inspector) (s : String)
    (f : Symbol → Bool) (pre suf : List Char)
    (hdecomp : s.data = pre ++ ':' :: suf) (hpre : ':' ∉ pre) (hsuf : ':' ∉ suf)
    (h1 : pre ≠ "kprobe".data) (h2 : pre ≠ "k".data)
    (h3 : pre ≠ "kretprobe".data) (h4 : pre ≠ "kr".data)
    (h5 : pre ≠ "raw_tracepoint".data) (h6 : pre ≠ "tp".data) :
    parse_probe insp s f = resolveTarget insp PType.rawTracepoint s f := by
  have hsplit : splitOnceColon s.data = some (pre, suf) := by
    rw [hdecomp]
    exact splitOnceColon_append pre suf hpre
  have hcount : s.data.count ':' = 1 := by
    rw [hdecomp]
    simp [List.count_append, List.count_cons, List.count_eq_zero.mpr hpre,
      List.count_eq_zero.mpr hsuf]
  simp [parse_probe, resolveTarget, hsplit, hcount, h1, h2, h3, h4, h5, h6,
    Bind.bind, Except.bind]

theorem parse_probe_no_colon (insp : Inspector) (s : String) (f : Symbol → Bool)
    (h : ':' ∉ s.data) :
    parse_probe insp s f = resolveTarget insp PType.kprobe s f := by
  have hsplit := splitOnceColon_none s.data h
  simp [parse_probe, resolveTarget, hsplit, Bind.bind, Except.bind]

theorem parse_probe_invalid_type (insp : Inspector) (s : String)
    (f : Symbol → Bool) (pre suf : List Char)
    (hdecomp : s.data = pre ++ ':' :: suf) (hpre : ':' ∉ pre) (hsuf : ':' ∈ suf)
    (h1 : pre ≠ "kprobe".data) (h2 : pre ≠ "k".data)
    (h3 : pre ≠ "kretprobe".data) (h4 : pre ≠ "kr".data)
    (h5 : pre ≠ "raw_tracepoint".data) (h6 : pre ≠ "tp".data) :
    parse_probe insp s f =
      Except.error (ParseError.invalidType (String.mk pre)) := by
  have hsplit : splitOnceColon s.data = some (pre, suf) := by
    rw [hdecomp]
    exact splitOnceColon_append pre suf hpre
  have hsc : suf.count ':' ≠ 0 := by
    simpa [List.count_eq_zero] using hsuf
  have hcount : ¬ s.data.count ':' = 1 := by
    rw [hdecomp]
    intro hcc
    simp [List.count_append, List.count_cons,
      List.count_eq_zero.mpr hpre] at hcc
    omega
  simp [parse_probe, hsplit, hcount, h1, h2, h3, h4, h5, h6,
    Bind.bind, Except.bind]

theorem resolveTarget_funcs_err (insp : Inspector) (t : String)
    (f : Symbol → Bool)
    (hnomatch : ∀ funcs, insp.traceable_funcs = some funcs →
      ∀ fn ∈ funcs, globMatchStr t fn = false) :
    ∃ e, resolveTarget insp PType.kprobe t f = Except.error e := by
  rcases hf : insp.traceable_funcs with _ | funcs
  · exact ⟨ParseError.fileAbsent,
      by simp [resolveTarget, matching_functions_to_symbols, hf,
        Bind.bind, Except.bind]⟩
  · have hfil : funcs.filter (fun fn => globMatchStr t fn) = [] :=
      List.filter_eq_nil_iff.mpr
        (fun fn hfn => by simp [hnomatch funcs hf fn hfn])
    refine ⟨ParseError.missingSymbols t, ?_⟩
    simp [resolveTarget, matching_functions_to_symbols, hf, hfil,
      Bind.bind, Except.bind]

theorem resolveTarget_events_err (insp : Inspector) (t : String)
    (f : Symbol → Bool)
    (hnomatch : ∀ events, insp.traceable_events = some events →
      ∀ ev ∈ events, globMatchStr t ev = false) :
    ∃ e, resolveTarget insp PType.rawTracepoint t f = Except.error e := by
  rcases hf : insp.traceable_events with _ | events
  · exact ⟨ParseError.fileAbsent,
      by simp [resolveTarget, matching_events_to_symbols, hf,
        Bind.bind, Except.bind]⟩
  · have hfil : events.filter (fun ev => globMatchStr t ev) = [] :=
      List.filter_eq_nil_iff.mpr
        (fun ev hev => by simp [hnomatch events hf ev hev])
    refine ⟨ParseError.missingSymbols t, ?_⟩
    simp [resolveTarget, matching_events_to_symbols, hf, hfil,
      Bind.bind, Except.bind]

theorem matching_funcs_ok_ne_nil (insp : Inspector) (t : String)
    (syms : List Symbol)
    (h : matching_functions_to_symbols insp t = Except.ok syms) : syms ≠ [] := by
  rcases hf : insp.traceable_funcs with _ | funcs
  · simp [matching_functions_to_symbols, hf] at h
  · simp only [matching_functions_to_symbols, hf] at h
    by_cases he : (funcs.filter (fun fn => globMatchStr t fn)).isEmpty = true
    · rw [if_pos he] at h
      simp at h
    · rw [if_neg he] at h
      have hn : funcs.filter (fun fn => globMatchStr t fn) ≠ [] := by
        simpa [List.isEmpty_iff] using he
      have hh : (funcs.filter (fun fn => globMatchStr t fn)).map Symbol.func =
          syms := by simpa using h
      rw [← hh]
      simpa using hn

theorem matching_events_ok_ne_nil (insp : Inspector) (t : String)
    (syms : List Symbol)
    (h : matching_events_to_symbols insp t = Except.ok syms) : syms ≠ [] := by
  rcases hf : insp.traceable_events with _ | events
  · simp [matching_events_to_symbols, hf] at h
  · simp only [matching_events_to_symbols, hf] at h
    by_cases he : (events.filter (fun ev => globMatchStr t ev)).isEmpty = true
    · rw [if_pos he] at h
      simp at h
    · rw [if_neg he] at h
      have hn : events.filter (fun ev => globMatchStr t ev) ≠ [] := by
        simpa [List.isEmpty_iff] using he
      have hh : (events.filter (fun ev => globMatchStr t ev)).map Symbol.event =
          syms := by simpa using h
      rw [← hh]
      simpa using hn

theorem resolveTarget_ok_ne_nil (insp : Inspector) (ty : PType) (t : String)
    (ps : List Probe)
    (h : resolveTarget insp ty t (fun _ => true) = Except.ok ps) : ps ≠ [] := by
  rcases ty with _ | _ | _
  all_goals simp only [resolveTarget] at h
  · rcases hm : matching_functions_to_symbols insp t with e | syms
    all_goals rw [hm] at h
    · simp [Bind.bind, Except.bind] at h
    · have hsy := matching_funcs_ok_ne_nil insp t syms hm
      have hh : (syms.filter (fun _ => true)).map (mkProbe PType.kprobe) =
          ps := by simpa [Bind.bind, Except.bind] using h
      rw [← hh]
      simpa [List.filter_true] using hsy
  · rcases hm : matching_functions_to_symbols insp t with e | syms
    all_goals rw [hm] at h
    · simp [Bind.bind, Except.bind] at h
    · have hsy := matching_funcs_ok_ne_nil insp t syms hm
      have hh : (syms.filter (fun _ => true)).map (mkProbe PType.kretprobe) =
          ps := by simpa [Bind.bind, Except.bind] using h
      rw [← hh]
      simpa [List.filter_true] using hsy
  · rcases hm : matching_events_to_symbols insp t with e | syms
    all_goals rw [hm] at h
    · simp [Bind.bind, Except.bind] at h
    · have hsy := matching_events_ok_ne_nil insp t syms hm
      have hh : (syms.filter (fun _ => true)).map (mkProbe PType.rawTracepoint) =
          ps := by simpa [Bind.bind, Except.bind] using h
      rw [← hh]
      simpa [List.filter_true] using hsy

theorem parse_probe_shape (insp : Inspector) (s : String) (f : Symbol → Bool) :
    (∃ pre, parse_probe insp s f =
      Except.error (ParseError.invalidType (String.mk pre))) ∨
    ∃ ty t, parse_probe insp s f = resolveTarget insp ty t f := by
  rcases hs : splitOnceColon s.data with _ | ⟨pre, suf⟩
  · right
    refine ⟨PType.kprobe, s, ?_⟩
    simp [parse_probe, resolveTarget, hs, Bind.bind, Except.bind]
  · by_cases h1 : pre = "kprobe".data ∨ pre = "k".data
    · right
      refine ⟨PType.kprobe, String.mk suf, ?_⟩
      rcases h1 with h1 | h1 <;>
        simp [parse_probe, resolveTarget, hs, h1, Bind.bind, Except.bind]
    · push_neg at h1
      by_cases h2 : pre = "kretprobe".data ∨ pre = "kr".data
      · right
        refine ⟨PType.kretprobe, String.mk suf, ?_⟩
        rcases h2 with h2 | h2 <;>
          simp [parse_probe, resolveTarget, hs, h1.1, h1.2, h2,
            Bind.bind, Except.bind]
      · push_neg at h2
        by_cases h3 : pre = "raw_tracepoint".data ∨ pre = "tp".data
        · right
          refine ⟨PType.rawTracepoint, String.mk suf, ?_⟩
          rcases h3 with h3 | h3 <;>
            simp [parse_probe, resolveTarget, hs, h1.1, h1.2, h2.1, h2.2, h3,
              Bind.bind, Except.bind]
        · push_neg at h3
          by_cases h4 : s.data.count ':' = 1
          · right
            refine ⟨PType.rawTracepoint, s, ?_⟩
            simp [parse_probe, resolveTarget, hs, h1.1, h1.2, h2.1, h2.2,
              h3.1, h3.2, h4, Bind.bind, Except.bind]
          · left
            refine ⟨pre, ?_⟩
            simp [parse_probe, hs, h1.1, h1.2, h2.1, h2.2, h3.1, h3.2, h4,
              Bind.bind, Except.bind]

theorem resolveTarget_kprobe_empty (insp : Inspector) (hwf : insp.wf)
    (f : Symbol → Bool) :
    ∃ e, resolveTarget insp PType.kprobe "" f = Except.error e := by
  refine resolveTarget_funcs_err insp "" f ?_
  intro funcs hf fn hfn
  have hne := (hwf.1 funcs hf fn hfn).1
  cases hh : fn.data with
  | nil => exact absurd hh hne
  | cons a as => simp [globMatchStr, hh, globMatch]

theorem resolveTarget_tp_empty (insp : Inspector) (hwf : insp.wf)
    (f : Symbol → Bool) :
    ∃ e, resolveTarget insp PType.rawTracepoint "" f = Except.error e := by
  refine resolveTarget_events_err insp "" f ?_
  intro events hev ev hevm
  obtain ⟨g, n, hdecomp, _, _, _, _⟩ := hwf.2 events hev ev hevm
  cases hh : ev.data with
  | nil =>
      rw [hh] at hdecomp
      exact absurd hdecomp.symm (by simp)
  | cons a as => simp [globMatchStr, hh, globMatch]

theorem resolveTarget_tp_trailing_colon (insp : Inspector) (hwf : insp.wf)
    (f : Symbol → Bool) :
    ∃ e, resolveTarget insp PType.rawTracepoint "skb:" f = Except.error e := by
  refine resolveTarget_events_err insp "skb:" f ?_
  intro events hev ev hevm
  obtain ⟨g, n, hdecomp, _, hn, hg, _⟩ := hwf.2 events hev ev hevm
  cases hx : globMatchStr "skb:" ev with
  | false => rfl
  | true =>
      exfalso
      have heq : "skb:".data = ev.data :=
        (globMatch_exact "skb:".data (by decide) ev.data).mp hx
      have heq2 : "skb".data ++ ':' :: ([] : List Char) = g ++ ':' :: n := by
        rw [← hdecomp, ← heq]
        decide
      obtain ⟨_, hrn⟩ := colon_append_inj "skb".data [] g n (by decide) hg heq2
      exact hn hrn.symm

theorem resolveTarget_tp_leading_colon (insp : Inspector) (hwf : insp.wf)
    (f : Symbol → Bool) :
    ∃ e, resolveTarget insp PType.rawTracepoint ":foo" f = Except.error e := by
  refine resolveTarget_events_err insp ":foo" f ?_
  intro events hev ev hevm
  obtain ⟨g, n, hdecomp, hgne, _, hg, _⟩ := hwf.2 events hev ev hevm
  cases hx : globMatchStr ":foo" ev with
  | false => rfl
  | true =>
      exfalso
      have heq : ":foo".data = ev.data :=
        (globMatch_exact ":foo".data (by decide) ev.data).mp hx
      have heq2 : ([] : List Char) ++ ':' :: "foo".data = g ++ ':' :: n := by
        rw [← hdecomp, ← heq]
        rfl
      obtain ⟨hrg, _⟩ := colon_append_inj [] "foo".data g n (by decide) hg heq2
      exact hgne hrg.symm

theorem resolveTarget_kprobe_colon_target (insp : Inspector) (hwf : insp.wf)
    (t : String) (f : Symbol → Bool) (hcolon : ':' ∈ t.data) :
    ∃ e, resolveTarget insp PType.kprobe t f = Except.error e := by
  refine resolveTarget_funcs_err insp t f ?_
  intro funcs hf fn hfn
  have hnc := (hwf.1 funcs hf fn hfn).2
  cases hx : globMatchStr t fn with
  | false => rfl
  | true =>
      exfalso
      exact hnc (globMatch_char_mem t.data fn.data hx ':' hcolon (by decide))

theorem parse_probe_ok_ne_nil (insp : Inspector) (s : String) (ps : List Probe)
    (h : parse_probe insp s (fun _ => true) = Except.ok ps) : ps ≠ [] := by
  rcases parse_probe_shape insp s (fun _ => true) with ⟨pre, herr⟩ | ⟨ty, t, heq⟩
  · rw [herr] at h
    exact absurd h (by simp)
  · rw [heq] at h
    exact resolveTarget_ok_ne_nil insp ty t ps h

/-- C5: `parse_probe` resolves the probe type as the claim states: a
`kprobe|k`, `kretprobe|kr` or `raw_tracepoint|tp` prefix selects that type
with the remainder as target; otherwise an input with exactly one `:` is
treated whole as a `group:event` raw tracepoint; an input with no `:` is a
kernel-function entry probe. The listed empty-segment inputs, unknown
symbols and wrong-kind targets fail; successful parses with a pass-all
filter return a non-empty probe list. -/
theorem C5_parse_probe (insp : Inspector) (hwf : insp.wf) :
    (∀ rest f, parse_probe insp ("kprobe:" ++ rest) f =
      resolveTarget insp PType.kprobe rest f) ∧
    (∀ rest f, parse_probe insp ("k:" ++ rest) f =
      resolveTarget insp PType.kprobe rest f) ∧
    (∀ rest f, parse_probe insp ("kretprobe:" ++ rest) f =
      resolveTarget insp PType.kretprobe rest f) ∧
    (∀ rest f, parse_probe insp ("kr:" ++ rest) f =
      resolveTarget insp PType.kretprobe rest f) ∧
    (∀ rest f, parse_probe insp ("raw_tracepoint:" ++ rest) f =
      resolveTarget insp PType.rawTracepoint rest f) ∧
    (∀ rest f, parse_probe insp ("tp:" ++ rest) f =
      resolveTarget insp PType.rawTracepoint rest f) ∧
    (∀ s f pre suf, s.data = pre ++ ':' :: suf → ':' ∉ pre → ':' ∉ suf →
      pre ≠ "kprobe".data → pre ≠ "k".data → pre ≠ "kretprobe".data →
      pre ≠ "kr".data → pre ≠ "raw_tracepoint".data → pre ≠ "tp".data →
      parse_probe insp s f = resolveTarget insp PType.rawTracepoint s f) ∧
    (∀ s f, ':' ∉ s.data →
      parse_probe insp s f = resolveTarget insp PType.kprobe s f) ∧
    (∀ f, ∃ e, parse_probe insp "" f = Except.error e) ∧
    (∀ f, ∃ e, parse_probe insp "kprobe:" f = Except.error e) ∧
    (∀ f, ∃ e, parse_probe insp "tp:" f = Except.error e) ∧
    (∀ f, ∃ e, parse_probe insp "tp:skb:" f = Except.error e) ∧
    (∀ f, ∃ e, parse_probe insp ":foo" f = Except.error e) ∧
    (∀ t f, ':' ∈ t.data →
      ∃ e, resolveTarget insp PType.kprobe t f = Except.error e) ∧
    (∀ s ps, parse_probe insp s (fun _ => true) = Except.ok ps → ps ≠ []) := by
  refine ⟨fun rest f => parse_probe_kprobe_eq insp rest f,
    fun rest f => parse_probe_k_eq insp rest f,
    fun rest f => parse_probe_kretprobe_eq insp rest f,
    fun rest f => parse_probe_kr_eq insp rest f,
    fun rest f => parse_probe_rawtp_eq insp rest f,
    fun rest f => parse_probe_tp_eq insp rest f,
    fun s f pre suf hdecomp hpre hsuf h1 h2 h3 h4 h5 h6 =>
      parse_probe_single_colon insp s f pre suf hdecomp hpre hsuf
        h1 h2 h3 h4 h5 h6,
    fun s f h => parse_probe_no_colon insp s f h,
    ?_, ?_, ?_, ?_, ?_,
    fun t f h => resolveTarget_kprobe_colon_target insp hwf t f h,
    fun s ps h => parse_probe_ok_ne_nil insp s ps h⟩
  · intro f
    rw [parse_probe_no_colon insp "" f (by decide)]
    exact resolveTarget_kprobe_empty insp hwf f
  · intro f
    rw [show ("kprobe:" : String) = "kprobe:" ++ "" from by decide,
      parse_probe_kprobe_eq insp "" f]
    exact resolveTarget_kprobe_empty insp hwf f
  · intro f
    rw [show ("tp:" : String) = "tp:" ++ "" from by decide,
      parse_probe_tp_eq insp "" f]
    exact resolveTarget_tp_empty insp hwf f
  · intro f
    rw [show ("tp:skb:" : String) = "tp:" ++ "skb:" from by decide,
      parse_probe_tp_eq insp "skb:" f]
    exact resolveTarget_tp_trailing_colon insp hwf f
  · intro f
    rw [parse_probe_single_colon insp ":foo" f [] "foo".data (by decide)
      (by decide) (by decide) (by decide) (by decide) (by decide) (by decide)
      (by decide) (by decide)]
    exact resolveTarget_tp_leading_colon insp hwf f

theorem C5_witness :
    parse_probe insp5 ("tp:" ++ "skb:kfree_skb") (fun _ => true) =
      resolveTarget insp5 PType.rawTracepoint "skb:kfree_skb"
        (fun _ => true) :=
  (C5_parse_probe insp5
    (by
      constructor
      · intro funcs hf
        obtain rfl : ["consume_skb", "tcp_v6_connect"] = funcs := by
          simpa [insp5] using hf
        decide
      · intro events hev
        obtain rfl : ["skb:kfree_skb"] = events := by
          simpa [insp5] using hev
        intro e he
        obtain rfl : e = "skb:kfree_skb" := by simpa using he
        exact ⟨"skb".data, "kfree_skb".data, by decide, by decide, by decide,
          by decide, by decide⟩)).2.2.2.2.2.1
    "skb:kfree_skb" (fun _ => true)

/-! ### File events factory theorems -/

/-- C10: `next_event` errors before `start()`; after `start()` an
unreadable line gives the same result as end-of-file (`Ok(None)`), while a
read line that is not a JSON object, repeats a section id, or names an
owner without a registered factory fails with an error. -/
theorem C10_file_factory :
    (∀ f : FileEventsFactory, f.lines = none →
      f.next_event = (f, Except.error ())) ∧
    (∀ f : FileEventsFactory, f.lines = some [] →
      f.next_event = (f, Except.ok none)) ∧
    (∀ (f : FileEventsFactory) rest, f.lines = some (JsonLine.ioError :: rest) →
      f.next_event = ({ f with lines := some rest }, Except.ok none)) ∧
    (∀ (factories : List (ModuleId × SectionFactory)) (j : Json),
      (∀ fields, j ≠ Json.obj fields) →
      parse_line factories j = Except.error ()) ∧
    (∀ (ev : Event) (id : ModuleId) (v : Json),
      ev.any (fun kv => kv.1 == id) = true →
      Event.insert_section ev id v = Except.error ()) ∧
    (∀ (factories : List (ModuleId × SectionFactory)) (s : String) (a b : Json)
      (id : ModuleId) (fct : SectionFactory) (va : Json),
      ModuleId.from_str s = Except.ok id →
      lookupFactory factories id = some fct → fct a = Except.ok va →
      parse_line factories (Json.obj [(s, a), (s, b)]) = Except.error ()) ∧
    (∀ (factories : List (ModuleId × SectionFactory)) (s : String) (v : Json)
      (rest : List (String × Json)),
      ModuleId.from_str s = Except.error () →
      parse_line factories (Json.obj ((s, v) :: rest)) = Except.error ()) ∧
    (∀ (factories : List (ModuleId × SectionFactory)) (s : String) (v : Json)
      (rest : List (String × Json)) (id : ModuleId),
      ModuleId.from_str s = Except.ok id → lookupFactory factories id = none →
      parse_line factories (Json.obj ((s, v) :: rest)) = Except.error ()) := by
  refine ⟨?_, ?_, ?_, ?_, ?_, ?_, ?_, ?_⟩
  · intro f h
    simp [FileEventsFactory.next_event, h]
  · intro f h
    simp [FileEventsFactory.next_event, h]
  · intro f rest h
    simp [FileEventsFactory.next_event, h]
  · intro factories j hobj
    cases j with
    | obj fields => exact absurd rfl (hobj fields)
    | null => rfl
    | bool b => rfl
    | num n => rfl
    | str s => rfl
    | arr elems => rfl
  · intro ev id v h
    simp [Event.insert_section, h]
  · intro factories s a b id fct va hid hfct hva
    rcases hb : fct b with e | sec <;>
      simp [parse_line, parseSections, hid, hfct, hva, hb,
        Event.insert_section, Bind.bind, Except.bind]
  · intro factories s v rest hid
    simp [parse_line, parseSections, hid, Bind.bind, Except.bind]
  · intro factories s v rest id hid hfct
    simp [parse_line, parseSections, hid, hfct, Bind.bind, Except.bind]

theorem C10_witness :
    (FileEventsFactory.new [JsonLine.value (Json.obj [])]).next_event =
      (FileEventsFactory.new [JsonLine.value (Json.obj [])],
        Except.error ()) :=
  C10_file_factory.1 (FileEventsFactory.new [JsonLine.value (Json.obj [])]) rfl

/-! ### Flow enricher lemmas -/

theorem findRecord_regRun (data : List (Ufid × FlowInfoRecord)) (u : Ufid)
    (r : FlowInfoRecord) (th : Nat) (h : findRecord data u = some r)
    (hl : r.last_used > th) :
    findRecord (regRun data th) u = some r := by
  induction data with
  | nil => simp [findRecord] at h
  | cons kv rest ih =>
      by_cases hu : kv.1 = u
      · rw [findRecord, if_pos hu] at h
        obtain rfl : kv.2 = r := Option.some_inj.mp h
        rw [regRun, List.filter_cons, if_pos (by simpa using hl)]
        rw [findRecord, if_pos hu]
      · rw [findRecord, if_neg hu] at h
        rw [regRun, List.filter_cons]
        split
        · rw [findRecord, if_neg hu]
          exact ih h
        · exact ih h

theorem findRecord_setLastUsed_self (data : List (Ufid × FlowInfoRecord))
    (u : Ufid) (now : Nat) (r : FlowInfoRecord)
    (h : findRecord data u = some r) :
    findRecord (setLastUsed data u now) u =
      some { event := r.event, last_used := now } := by
  induction data with
  | nil => simp [findRecord] at h
  | cons kv rest ih =>
      by_cases hu : kv.1 = u
      · rw [findRecord, if_pos hu] at h
        obtain rfl : kv.2 = r := Option.some_inj.mp h
        rw [setLastUsed, List.map_cons, if_pos hu]
        rw [findRecord]
        simp [hu]
      · rw [findRecord, if_neg hu] at h
        rw [setLastUsed, List.map_cons, if_neg hu]
        rw [findRecord, if_neg hu]
        exact ih h

theorem findRecord_setLastUsed_ne (data : List (Ufid × FlowInfoRecord))
    (v u : Ufid) (now : Nat) (hne : v ≠ u) :
    findRecord (setLastUsed data v now) u = findRecord data u := by
  induction data with
  | nil => rfl
  | cons kv rest ih =>
      by_cases hv : kv.1 = v
      · rw [setLastUsed, List.map_cons, if_pos hv]
        rw [findRecord, findRecord, if_neg (hv ▸ hne), if_neg (hv ▸ hne)]
        exact ih
      · rw [setLastUsed, List.map_cons, if_neg hv]
        rw [findRecord, findRecord]
        split
        · rfl
        · exact ih

theorem findRecord_removeUfid_ne (data : List (Ufid × FlowInfoRecord))
    (v u : Ufid) (hne : v ≠ u) :
    findRecord (removeUfid data v) u = findRecord data u := by
  induction data with
  | nil => rfl
  | cons kv rest ih =>
      by_cases hv : kv.1 = v
      · rw [removeUfid, List.filter_cons, if_neg (by simp [hv])]
        rw [findRecord, if_neg (hv ▸ hne)]
        exact ih
      · rw [removeUfid, List.filter_cons, if_pos (by simp [hv])]
        rw [findRecord, findRecord]
        split
        · rfl
        · exact ih

theorem retainNotCached_cons (reg : List (Ufid × FlowInfoRecord))
    (t0 : EnrichRequest) (ts : List EnrichRequest) (now : Nat) :
    retainNotCached reg (t0 :: ts) now =
      ((retainNotCached (regLookup reg t0 now).2 ts now).1,
        if (regLookup reg t0 now).1 then
          (retainNotCached (regLookup reg t0 now).2 ts now).2
        else t0 :: (retainNotCached (regLookup reg t0 now).2 ts now).2) := by
  rcases hl : regLookup reg t0 now with ⟨hit, reg1⟩
  rcases hr : retainNotCached reg1 ts now with ⟨reg2, kept⟩
  simp [retainNotCached, hl, hr]

theorem retainNotCached_no_u (u : Ufid) (ev : OvsFlowInfoEvent) (now : Nat) :
    ∀ (tasks : List EnrichRequest) (reg : List (Ufid × FlowInfoRecord))
      (lu : Nat),
      findRecord reg u = some { event := ev, last_used := lu } →
      (∀ t ∈ tasks, t.ufid = u →
        t.flow = ev.flow ∧ t.sf_acts = ev.sf_acts) →
      ∀ t ∈ (retainNotCached reg tasks now).2, t.ufid ≠ u := by
  intro tasks
  induction tasks with
  | nil =>
      intro reg lu _ _ t ht
      simp [retainNotCached] at ht
  | cons t0 ts ih =>
      intro reg lu hfind hall
      have htail := fun t ht htu => hall t (List.mem_cons_of_mem t0 ht) htu
      have hcons := congrArg Prod.snd (retainNotCached_cons reg t0 ts now)
      by_cases hu : t0.ufid = u
      · have hmatch := hall t0 (List.mem_cons_self t0 ts) hu
        have hlk : regLookup reg t0 now =
            (true, setLastUsed reg t0.ufid now) := by
          rw [regLookup, hu, hfind]
          simp [hmatch.1, hmatch.2]
        have hfind2 : findRecord (setLastUsed reg t0.ufid now) u =
            some { event := ev, last_used := now } := by
          rw [hu]
          exact findRecord_setLastUsed_self reg u now _ hfind
        rw [hcons, hlk]
        simpa using ih (setLastUsed reg t0.ufid now) now hfind2 htail
      · rcases hf0 : findRecord reg t0.ufid with _ | r0
        · have hlk : regLookup reg t0 now = (false, reg) := by
            rw [regLookup, hf0]
          rw [hcons, hlk]
          have hkept := ih reg lu hfind htail
          intro t ht
          rcases List.mem_cons.mp (by simpa using ht) with rfl | htk
          · exact hu
          · exact hkept t htk
        · by_cases hp : r0.event.flow = t0.flow ∧ r0.event.sf_acts = t0.sf_acts
          · have hlk : regLookup reg t0 now =
                (true, setLastUsed reg t0.ufid now) := by
              rw [regLookup, hf0]
              simp [hp.1, hp.2]
            have hfind1 : findRecord (setLastUsed reg t0.ufid now) u =
                some { event := ev, last_used := lu } := by
              rw [findRecord_setLastUsed_ne reg t0.ufid u now hu]
              exact hfind
            rw [hcons, hlk]
            simpa using ih (setLastUsed reg t0.ufid now) lu hfind1 htail
          · have hlk : regLookup reg t0 now =
                (false, removeUfid reg t0.ufid) := by
              rw [regLookup, hf0]
              simp [hp]
            have hfind1 : findRecord (removeUfid reg t0.ufid) u =
                some { event := ev, last_used := lu } := by
              rw [findRecord_removeUfid_ne reg t0.ufid u hu]
              exact hfind
            rw [hcons, hlk]
            have hkept := ih (removeUfid reg t0.ufid) lu hfind1 htail
            intro t ht
            rcases List.mem_cons.mp (by simpa using ht) with rfl | htk
            · exact hu
            · exact hkept t htk

theorem retainNotCached_sublist (now : Nat) :
    ∀ (tasks : List EnrichRequest) (reg : List (Ufid × FlowInfoRecord)),
      (retainNotCached reg tasks now).2.Sublist tasks := by
  intro tasks
  induction tasks with
  | nil =>
      intro reg
      simp [retainNotCached]
  | cons t0 ts ih =>
      intro reg
      rw [congrArg Prod.snd (retainNotCached_cons reg t0 ts now)]
      by_cases hh : (regLookup reg t0 now).1 = true
      · simp only [hh, if_true]
        exact (ih (regLookup reg t0 now).2).cons t0
      · simp only [hh, if_false]
        exact (ih (regLookup reg t0 now).2).cons₂ t0

theorem enqueue_cons_of_no_match (t0 : EnrichRequest) (ts : List EnrichRequest)
    (req : EnrichRequest) (h : (t0.ufid == req.ufid) = false) :
    enqueue (t0 :: ts) req = t0 :: enqueue ts req := by
  rw [enqueue, enqueue, findPos, h]
  simp only [Bool.false_eq_true, if_false]
  rcases hf : findPos (fun r => r.ufid == req.ufid) ts with _ | pos
  · simp
  · simp [List.eraseIdx_cons_succ]

theorem enqueue_eq_filter (req : EnrichRequest) :
    ∀ tasks : List EnrichRequest,
      tasks.Pairwise (fun a b => a.ufid ≠ b.ufid) →
      enqueue tasks req =
        tasks.filter (fun r => !(r.ufid == req.ufid)) ++ [req] := by
  intro tasks
  induction tasks with
  | nil =>
      intro _
      rfl
  | cons t0 ts ih =>
      intro hp
      by_cases h : (t0.ufid == req.ufid) = true
      · have hu : t0.ufid = req.ufid := by simpa using h
        have hrest : ts.filter (fun r => !(r.ufid == req.ufid)) = ts := by
          rw [List.filter_eq_self]
          intro t ht
          have := (List.pairwise_cons.mp hp).1 t ht
          simp only [Bool.not_eq_eq_eq_not, Bool.not_true, beq_eq_false_iff_ne,
            ne_eq]
          intro hh
          exact this (by rw [hu, hh])
        rw [enqueue, findPos, h]
        simp only [if_true]
        rw [List.filter_cons]
        simp only [h, Bool.not_true, Bool.false_eq_true, if_false]
        rw [hrest]
        simp [List.eraseIdx]
      · have hb : (t0.ufid == req.ufid) = false := by
          simpa using h
        rw [enqueue_cons_of_no_match t0 ts req hb,
          ih (List.pairwise_cons.mp hp).2]
        rw [List.filter_cons]
        simp [hb]

theorem enqueue_pairwise (tasks : List EnrichRequest) (req : EnrichRequest)
    (hp : tasks.Pairwise (fun a b => a.ufid ≠ b.ufid)) :
    (enqueue tasks req).Pairwise (fun a b => a.ufid ≠ b.ufid) := by
  rw [enqueue_eq_filter req tasks hp]
  rw [List.pairwise_append]
  refine ⟨hp.sublist (List.filter_sublist _), List.pairwise_singleton _ _, ?_⟩
  intro a ha b hb
  obtain rfl : b = req := by simpa using hb
  have := (List.mem_filter.mp ha).2
  simpa using this

theorem enqueue_mem (tasks : List EnrichRequest) (req t : EnrichRequest)
    (h : t ∈ enqueue tasks req) : t ∈ tasks ∨ t = req := by
  rw [enqueue] at h
  rcases hf : findPos (fun r => r.ufid == req.ufid) tasks with _ | pos
  · rw [hf] at h
    rcases List.mem_append.mp h with h1 | h1
    · exact Or.inl h1
    · exact Or.inr (by simpa using h1)
  · rw [hf] at h
    rcases List.mem_append.mp h with h1 | h1
    · exact Or.inl ((tasks.eraseIdx_sublist pos).mem h1)
    · exact Or.inr (by simpa using h1)

theorem stepBody_next_request_mono (dsup : Bool) (s : EnricherState)
    (tasks0 : List EnrichRequest) (now : Nat) (detr getf : Ufid → RunResult) :
    s.next_request ≤ (stepBody dsup s tasks0 now detr getf).state.next_request := by
  simp only [stepBody]
  repeat' split
  all_goals dsimp only
  all_goals omega

theorem stepBody_issue (dsup : Bool) (s : EnricherState)
    (tasks0 : List EnrichRequest) (now : Nat) (detr getf : Ufid → RunResult)
    (h : (stepBody dsup s tasks0 now detr getf).requests ≠ []) :
    s.next_request ≤ now ∧
      (stepBody dsup s tasks0 now detr getf).state.next_request =
        now + minRequestTime := by
  revert h
  simp only [stepBody]
  repeat' split
  all_goals dsimp only
  all_goals intro h
  all_goals first
    | exact absurd rfl h
    | exact ⟨by omega, rfl⟩

theorem stepBody_requests_len (dsup : Bool) (s : EnricherState)
    (tasks0 : List EnrichRequest) (now : Nat) (detr getf : Ufid → RunResult) :
    (stepBody dsup s tasks0 now detr getf).requests.length ≤ 2 := by
  simp only [stepBody]
  repeat' split
  all_goals simp

theorem stepBody_requests_len_nodetrace (s : EnricherState)
    (tasks0 : List EnrichRequest) (now : Nat) (detr getf : Ufid → RunResult) :
    (stepBody false s tasks0 now detr getf).requests.length ≤ 1 := by
  simp only [stepBody]
  repeat' split
  all_goals simp_all

theorem step_next_request_mono (dsup : Bool) (s : EnricherState)
    (inp : StepInput) :
    s.next_request ≤ (step dsup s inp).state.next_request := by
  simp only [step]
  exact stepBody_next_request_mono dsup s _ inp.now _ _

theorem step_issue (dsup : Bool) (s : EnricherState) (inp : StepInput)
    (h : (step dsup s inp).requests ≠ []) :
    s.next_request ≤ inp.now ∧
      (step dsup s inp).state.next_request = inp.now + minRequestTime := by
  simp only [step] at h ⊢
  exact stepBody_issue dsup s _ inp.now _ _ h

theorem stepBody_tasks_sublist (dsup : Bool) (s : EnricherState)
    (tasks0 : List EnrichRequest) (now : Nat) (detr getf : Ufid → RunResult) :
    (stepBody dsup s tasks0 now detr getf).state.tasks.Sublist tasks0 := by
  have hret :
      (retainNotCached (regRun s.registry (now - flowAgeTime)) tasks0
        now).2.Sublist tasks0 :=
    retainNotCached_sublist now tasks0 _
  simp only [stepBody]
  split
  · exact hret
  split
  · exact hret
  split
  · exact List.nil_sublist _
  rename_i t ts heq
  have hts : ts.Sublist tasks0 :=
    (List.sublist_cons_self t ts).trans
      ((by rw [← heq]; exact List.drop_sublist _ _ :
          (t :: ts).Sublist
            (retainNotCached (regRun s.registry (now - flowAgeTime)) tasks0
              now).2).trans hret)
  repeat' split
  all_goals exact hts

theorem stepBody_cached_no_request (dsup : Bool) (s : EnricherState)
    (tasks0 : List EnrichRequest) (now : Nat) (detr getf : Ufid → RunResult)
    (u : Ufid) (ev : OvsFlowInfoEvent) (lu : Nat)
    (hfr : findRecord s.registry u = some { event := ev, last_used := lu })
    (hlu : lu > now - flowAgeTime)
    (hm : ∀ t ∈ tasks0, t.ufid = u → t.flow = ev.flow ∧ t.sf_acts = ev.sf_acts) :
    ∀ cmd, (cmd, u) ∉ (stepBody dsup s tasks0 now detr getf).requests := by
  have hfr2 :
      findRecord (regRun s.registry (now - flowAgeTime)) u =
        some { event := ev, last_used := lu } :=
    findRecord_regRun _ _ _ _ hfr hlu
  have hne :
      ∀ t ∈ (retainNotCached (regRun s.registry (now - flowAgeTime)) tasks0
          now).2, t.ufid ≠ u :=
    retainNotCached_no_u u ev now tasks0 _ lu hfr2 hm
  intro cmd
  simp only [stepBody]
  split
  · simp
  split
  · simp
  split
  · simp
  rename_i t ts heq
  have hsub :
      (t :: ts).Sublist
        (retainNotCached (regRun s.registry (now - flowAgeTime)) tasks0
          now).2 := by
    rw [← heq]; exact List.drop_sublist _ _
  have htu : t.ufid ≠ u := hne t (hsub.subset (List.mem_cons_self t ts))
  have htu2 : u ≠ t.ufid := Ne.symm htu
  repeat' split
  all_goals simp_all

theorem runSteps_issue_lb (dsup : Bool) (inps : List StepInput) :
    ∀ s : EnricherState, ∀ out ∈ runSteps dsup s inps,
      out.2 ≠ [] → s.next_request ≤ out.1 := by
  induction inps with
  | nil =>
      intro s out h
      simp [runSteps] at h
  | cons inp rest ih =>
      intro s out h hne
      simp only [runSteps, List.mem_cons] at h
      rcases h with h | h
      · subst h
        exact (step_issue dsup s inp hne).1
      · exact le_trans (step_next_request_mono dsup s inp)
          (ih (step dsup s inp).state out h hne)

theorem runSteps_separation (dsup : Bool) (inps : List StepInput) :
    ∀ s : EnricherState,
      (runSteps dsup s inps).Pairwise
        (fun a b => a.2 ≠ [] → b.2 ≠ [] → a.1 + minRequestTime ≤ b.1) := by
  induction inps with
  | nil =>
      intro s
      simp [runSteps]
  | cons inp rest ih =>
      intro s
      simp only [runSteps]
      refine List.Pairwise.cons ?_ (ih (step dsup s inp).state)
      intro b hb ha hbne
      have h2 := (step_issue dsup s inp ha).2
      have h3 := runSteps_issue_lb dsup rest (step dsup s inp).state b hb hbne
      dsimp only
      omega

theorem runSteps_requests_len (dsup : Bool) (inps : List StepInput) :
    ∀ s : EnricherState, ∀ out ∈ runSteps dsup s inps, out.2.length ≤ 2 := by
  induction inps with
  | nil =>
      intro s out h
      simp [runSteps] at h
  | cons inp rest ih =>
      intro s out h
      simp only [runSteps, List.mem_cons] at h
      rcases h with h | h
      · subst h
        simpa only [step] using stepBody_requests_len dsup s _ inp.now _ _
      · exact ih (step dsup s inp).state out h

theorem runSteps_requests_len_nodetrace (inps : List StepInput) :
    ∀ s : EnricherState, ∀ out ∈ runSteps false s inps, out.2.length ≤ 1 := by
  induction inps with
  | nil =>
      intro s out h
      simp [runSteps] at h
  | cons inp rest ih =>
      intro s out h
      simp only [runSteps, List.mem_cons] at h
      rcases h with h | h
      · subst h
        simpa only [step] using stepBody_requests_len_nodetrace s _ inp.now _ _
      · exact ih (step false s inp).state out h

/-- **C7.** The flow enricher's queue invariant. (1) The receive-phase
deduplication: when the pending tasks have pairwise-distinct UFIDs, an
arriving request removes any pending task with its UFID and is pushed to
the tail (the queue becomes the old queue filtered of that UFID plus the
new request at the end). (2) Distinctness of pending UFIDs is preserved by
every loop iteration, so the queue never holds two tasks with the same
UFID. (3) A UFID enriched within the cache-age window whose record carries
the same (flow, sf_acts) pointer pair as every pending or arriving request
for it triggers no external request for that UFID this iteration. -/
theorem C7_dedup_and_cache :
    (∀ (tasks : List EnrichRequest) (req : EnrichRequest),
        tasks.Pairwise (fun a b => a.ufid ≠ b.ufid) →
        enqueue tasks req =
          tasks.filter (fun r => !(r.ufid == req.ufid)) ++ [req]) ∧
    (∀ (dsup : Bool) (s : EnricherState) (inp : StepInput),
        s.tasks.Pairwise (fun a b => a.ufid ≠ b.ufid) →
        (step dsup s inp).state.tasks.Pairwise
          (fun a b => a.ufid ≠ b.ufid)) ∧
    (∀ (dsup : Bool) (s : EnricherState) (inp : StepInput) (u : Ufid)
        (ev : OvsFlowInfoEvent) (lu : Nat),
        findRecord s.registry u = some { event := ev, last_used := lu } →
        lu > inp.now - flowAgeTime →
        (∀ t ∈ s.tasks, t.ufid = u →
          t.flow = ev.flow ∧ t.sf_acts = ev.sf_acts) →
        (∀ req, inp.recv = some req → req.ufid = u →
          req.flow = ev.flow ∧ req.sf_acts = ev.sf_acts) →
        ∀ cmd, (cmd, u) ∉ (step dsup s inp).requests) := by
  refine ⟨fun tasks req => enqueue_eq_filter req tasks, ?_, ?_⟩
  · intro dsup s inp hp
    have h0 :
        List.Pairwise (fun (a b : EnrichRequest) => a.ufid ≠ b.ufid)
          (match inp.recv with
            | some req => enqueue s.tasks req
            | none => s.tasks) := by
      rcases hr : inp.recv with _ | req
      · exact hp
      · exact enqueue_pairwise s.tasks req hp
    simp only [step]
    exact h0.sublist (stepBody_tasks_sublist dsup s _ inp.now _ _)
  · intro dsup s inp u ev lu hfr hlu hm hrecv cmd
    have hm0 :
        ∀ t : EnrichRequest, t ∈ (match inp.recv with
            | some req => enqueue s.tasks req
            | none => s.tasks) → t.ufid = u →
          t.flow = ev.flow ∧ t.sf_acts = ev.sf_acts := by
      rcases hr : inp.recv with _ | req
      · exact hm
      · intro t ht htu
        rcases enqueue_mem s.tasks req t ht with h1 | h1
        · exact hm t h1 htu
        · subst h1
          exact hrecv t hr htu
    simp only [step]
    exact stepBody_cached_no_request dsup s _ inp.now _ _ u ev lu hfr hlu
      hm0 cmd

/-- **C7 witness.** With `uC` freshly enriched in the registry with
matching pointers and the same request arriving again, the iteration
issues no daemon request for `uC`. -/
theorem C7_witness :
    ("dpctl/get-flow", uC) ∉ (step true s1C inpC).requests :=
  C7_dedup_and_cache.2.2 true s1C inpC uC
    { ufid := uC, flow := 1, sf_acts := 2, dpflow := "f", ofpflows := [] }
    9900 (by decide) (by decide)
    (fun t ht => absurd ht (by simp [s1C]))
    (fun req hr hu => by
      rw [show req = reqC from (Option.some_injective _ hr).symm]
      exact ⟨rfl, rfl⟩)
    "dpctl/get-flow"

/-- **C8 counterexample.** A single iteration with detrace support issues
two external requests back to back at the same clock instant (an
`ofproto/detrace` and a `dpctl/get-flow` for the same UFID), so
consecutive requests are not separated by 1000 ms / MAX_REQUESTS_PER_SEC:
only iterations are rate-limited, not individual requests. -/
theorem C8_counterexample :
    (step true s0C inpC).requests =
      [("ofproto/detrace", uC), ("dpctl/get-flow", uC)] ∧
      minRequestTime = 100 := by
  exact ⟨rfl, rfl⟩

/-- **C8 (amended).** Iterations of the enricher loop that issue external
requests have clock values at least minRequestTime = 1000 ms /
MAX_REQUESTS_PER_SEC apart (pairwise, in order); a single iteration
issues at most two requests — a detrace and a get-flow for one UFID, at
the same instant — and at most one when detrace is unsupported. -/
theorem C8_rate_limit (dsup : Bool) (s : EnricherState)
    (inps : List StepInput) :
    (runSteps dsup s inps).Pairwise
        (fun a b => a.2 ≠ [] → b.2 ≠ [] → a.1 + minRequestTime ≤ b.1) ∧
      (∀ out ∈ runSteps dsup s inps, out.2.length ≤ 2) ∧
      (∀ out ∈ runSteps false s inps, out.2.length ≤ 1) :=
  ⟨runSteps_separation dsup inps s,
    runSteps_requests_len dsup inps s,
    runSteps_requests_len_nodetrace inps s⟩

end Retis
